import Mathlib

/-!
oc-daemon: DNS proxy request handler, VPN setup orchestrator and allowed
devices of traffic policing.

A shallow embedding of `internal/dnsproxy/proxy.go`,
`internal/vpnsetup/vpnsetup.go` and `internal/trafpol/allowdevs.go`.

Stateful code is written in explicit state-passing style.  Every handler
threads a record that carries the mutable state it touches, the *trace* of
the effects it performed on its environment (external commands, method calls
on collaborators, channel operations) in program order, and the list of log
messages it wrote.  Results of the environment (outcome of an exchange with
an upstream, exit status of an external command, which case of a `select`
fired) are supplied by an oracle record.
-/

namespace dnsproxy

/-! ## Data model -/

/-- Resource record type `dns.TypeA` of the DNS library. -/
def TypeA : Nat := 1
/-- Resource record type `dns.TypeCNAME` of the DNS library. -/
def TypeCNAME : Nat := 5
/-- Resource record type `dns.TypeAAAA` of the DNS library. -/
def TypeAAAA : Nat := 28
/-- Resource record type `dns.TypeDNAME` of the DNS library. -/
def TypeDNAME : Nat := 39

/-- An IP address (`net.IP`, a byte slice). -/
abbrev IP := List Nat

/-- The header of a resource record (`dns.RR_Header`): owner name, record
type (`uint16`) and time to live (`uint32`). -/
structure RR_Header where
  Name : String
  Rrtype : Nat
  Ttl : Nat
deriving DecidableEq, Repr

/-- A resource record (`dns.RR`): the dynamic type of the record together with
its header.  The header carries its own `Rrtype`, which the handler uses to
select the record handler; the handler then asserts the dynamic type. -/
inductive RR where
  | A (Hdr : RR_Header) (A : IP)
  | AAAA (Hdr : RR_Header) (AAAA : IP)
  | CNAME (Hdr : RR_Header) (Target : String)
  | DNAME (Hdr : RR_Header) (Target : String)
  | Other (Hdr : RR_Header)
deriving DecidableEq, Repr

/-- The method `Header()` of a resource record. -/
def RR.Header : RR → RR_Header
  | .A h _ => h
  | .AAAA h _ => h
  | .CNAME h _ => h
  | .DNAME h _ => h
  | .Other h => h

/-- An entry of the question section (`dns.Question`). -/
structure Question where
  Name : String
deriving DecidableEq, Repr

/-- A DNS message (`dns.Msg`), reduced to the sections the handler reads. -/
structure Msg where
  Question : List Question
  Answer : List RR
deriving DecidableEq, Repr

/-- A report of a watched address, as built by `NewReport(name, ip, ttl)`. -/
structure Report where
  Name : String
  IP : IP
  TTL : Nat
deriving DecidableEq, Repr

/-- The constructor `NewReport`. -/
def NewReport (name : String) (ip : IP) (ttl : Nat) : Report := ⟨name, ip, ttl⟩

/-- The operations of the watch list (`p.watches`) used by the proxy.  The
type `Watches` lives in a file that is not part of the sources at hand, so
the handler is parametric in its implementation. -/
structure WatchesOps (W : Type) where
  Contains : W → String → Bool
  AddTempDNAME : W → String → Nat → W
  AddTempCNAME : W → String → Nat → W
  Flush : W → W
  Add : W → String → W

/-- The operations of the remotes map (`p.remotes`) used by the proxy; its
implementation is likewise a parameter. -/
structure RemotesOps (R : Type) where
  Get : R → String → List String
  Flush : R → R
  Add : R → String → List String → R

/-- The fields of `Proxy` the request handler and the setters work on. -/
structure Proxy (R W : Type) where
  remotes : R
  watches : W

/-- The effects of the request handler, in the order the handler performs
them. -/
inductive Effect where
  /-- The call `dns.Exchange(r, remote)`. -/
  | exchange (r : Msg) (remote : String)
  /-- The call `p.watches.AddTempDNAME(target, ttl)`. -/
  | addTempDNAME (target : String) (ttl : Nat)
  /-- The call `p.watches.AddTempCNAME(target, ttl)`. -/
  | addTempCNAME (target : String) (ttl : Nat)
  /-- The send `p.reports <- report`. -/
  | report (r : Report)
  /-- The call `report.Wait()`, which returns once `done` was raised. -/
  | wait (r : Report)
  /-- The call `w.WriteMsg(reply)`. -/
  | writeMsg (reply : Msg)
deriving DecidableEq, Repr

/-- The environment of one run of the handler: the random number generator,
the upstream servers and the client connection. -/
structure Env where
  /-- Result of `rand.Intn(n)`. -/
  Intn : Nat → Nat
  /-- Result of `dns.Exchange(r, remote)`; `none` is an error. -/
  Exchange : Msg → String → Option Msg
  /-- Whether `w.WriteMsg(reply)` returns an error. -/
  WriteMsgErr : Msg → Bool

/-- The state threaded through one run of the handler. -/
structure State (W : Type) where
  watches : W
  trace : List Effect
  log : List String

/-! ## The request handler -/

section Handler

variable {R W : Type}

/-- The closure `handleDNAME` of `handleRequest`. -/
def handleDNAME (wops : WatchesOps W) (a : RR) (s : State W) : State W :=
  match a with
  | .DNAME hdr target =>
    { watches := wops.AddTempDNAME s.watches target hdr.Ttl
      trace := s.trace ++ [Effect.addTempDNAME target hdr.Ttl]
      log := s.log ++ ["DNS-Proxy received DNAME in reply"] }
  | _ => { s with log := s.log ++ ["DNS-Proxy received invalid DNAME record in reply"] }

/-- The closure `handleCNAME` of `handleRequest`. -/
def handleCNAME (wops : WatchesOps W) (a : RR) (s : State W) : State W :=
  match a with
  | .CNAME hdr target =>
    { watches := wops.AddTempCNAME s.watches target hdr.Ttl
      trace := s.trace ++ [Effect.addTempCNAME target hdr.Ttl]
      log := s.log ++ ["DNS-Proxy received CNAME in reply"] }
  | _ => { s with log := s.log ++ ["DNS-Proxy received invalid CNAME record in reply"] }

/-- The closure `handleA` of `handleRequest`. -/
def handleA (a : RR) (s : State W) : State W :=
  match a with
  | .A hdr ip =>
    let report := NewReport hdr.Name ip hdr.Ttl
    { s with trace := s.trace ++ [Effect.report report, Effect.wait report] }
  | _ => { s with log := s.log ++ ["DNS-Proxy received invalid A record in reply"] }

/-- The closure `handleAAAA` of `handleRequest`. -/
def handleAAAA (a : RR) (s : State W) : State W :=
  match a with
  | .AAAA hdr ip =>
    let report := NewReport hdr.Name ip hdr.Ttl
    { s with trace := s.trace ++ [Effect.report report, Effect.wait report] }
  | _ => { s with log := s.log ++ ["DNS-Proxy received invalid AAAA record in reply"] }

/-- One of the maps from record type to record handler. -/
abbrev HandlerMap (W : Type) := List (Nat × (RR → State W → State W))

/-- The slice of handler maps the handler ranges over: DNAMEs, then CNAMEs,
then address records. -/
def handlerMaps (wops : WatchesOps W) : List (HandlerMap W) :=
  [ [(TypeDNAME, handleDNAME wops)],
    [(TypeCNAME, handleCNAME wops)],
    [(TypeA, handleA), (TypeAAAA, handleAAAA)] ]

/-- The body of the inner loop for one answer `a` under handler map `m`. -/
def handleAnswer (wops : WatchesOps W) (q : String) (m : HandlerMap W) (s : State W)
    (a : RR) : State W :=
  let name := a.Header.Name
  if (!wops.Contains s.watches q && !wops.Contains s.watches name) then
    -- not on watch list, ignore answer
    s
  else
    let typ := a.Header.Rrtype
    match m.lookup typ with
    | some h => h a s
    | none => s

/-- The inner loop `for _, a := range reply.Answer` for one handler map. -/
def handleAnswers (wops : WatchesOps W) (q : String) (answer : List RR) (s : State W)
    (m : HandlerMap W) : State W :=
  answer.foldl (handleAnswer wops q m) s

/-- The outer loop over the handler maps. -/
def handleReply (wops : WatchesOps W) (q : String) (answer : List RR) (s : State W) :
    State W :=
  (handlerMaps wops).foldl (handleAnswers wops q answer) s

/-- The selection `remotes[rand.Intn(len(remotes))]` of the upstream;
`rand.Intn(n)` returns a number in `[0, n)`. -/
def pickRemote (env : Env) (remotes : List String) : String :=
  remotes.getD (env.Intn remotes.length % remotes.length) ""

/-- The method `handleRequest`: the final watch list, the effect trace and
the log of handling request `r`. -/
def handleRequest (rops : RemotesOps R) (wops : WatchesOps W) (env : Env)
    (p : Proxy R W) (r : Msg) : State W :=
  let s : State W := { watches := p.watches, trace := [], log := [] }
  match r.Question with
  | [question] =>
    let remotes := rops.Get p.remotes question.Name
    if remotes.length = 0 then
      { s with log := s.log ++ ["DNS-Proxy has no remotes for question name"] }
    else
      let remote := pickRemote env remotes
      let s := { s with trace := s.trace ++ [Effect.exchange r remote] }
      match env.Exchange r remote with
      | none => { s with log := s.log ++ ["DNS-Proxy DNS exchange error"] }
      | some reply =>
        let s := handleReply wops question.Name reply.Answer s
        let s := { s with trace := s.trace ++ [Effect.writeMsg reply] }
        if env.WriteMsgErr reply then
          { s with log := s.log ++ ["DNS-Proxy could not forward reply"] }
        else s
  | _ => { s with log := s.log ++ ["DNS-Proxy received invalid client request"] }

/-- The method `SetRemotes`; the map is given as the list of its entries in
the order the `range` loop visits them. -/
def Proxy.SetRemotes (rops : RemotesOps R) (p : Proxy R W)
    (remotes : List (String × List String)) : Proxy R W :=
  { p with remotes := remotes.foldl (fun r ds => rops.Add r ds.1 ds.2) (rops.Flush p.remotes) }

/-- The method `SetWatches`. -/
def Proxy.SetWatches (wops : WatchesOps W) (p : Proxy R W) (watches : List String) :
    Proxy R W :=
  { p with watches := watches.foldl (fun w d => wops.Add w d) (wops.Flush p.watches) }

end Handler

/-! ## Vocabulary used to state the properties of the handler -/

/-- Whether the question name `q` or the owner name of `a` is on the watch
list `w`: the negation of the condition under which an answer is ignored. -/
def watched {W : Type} (wops : WatchesOps W) (w : W) (q : String) (a : RR) : Bool :=
  wops.Contains w q || wops.Contains w a.Header.Name

/-- The call an answer stands for when it is a DNAME record. -/
def dnameCall : RR → Option Effect
  | .DNAME hdr target => some (Effect.addTempDNAME target hdr.Ttl)
  | _ => none

/-- The call an answer stands for when it is a CNAME record. -/
def cnameCall : RR → Option Effect
  | .CNAME hdr target => some (Effect.addTempCNAME target hdr.Ttl)
  | _ => none

/-- The report `{owner, ip, ttl}` of an address record: an `A` record of type
`TypeA` or an `AAAA` record of type `TypeAAAA`. -/
def addrReport : RR → Option Report
  | .A hdr ip => if hdr.Rrtype = TypeA then some ⟨hdr.Name, ip, hdr.Ttl⟩ else none
  | .AAAA hdr ip => if hdr.Rrtype = TypeAAAA then some ⟨hdr.Name, ip, hdr.Ttl⟩ else none
  | _ => none

/-- The reports emitted in a trace, in order. -/
def reports (tr : List Effect) : List Report :=
  tr.filterMap fun e => match e with
    | .report r => some r
    | _ => none

/-- The watch list as it stands after the DNAME pass and the CNAME pass over
`answer`, started from the watch list `w`. -/
def watchesAfterAliases {W : Type} (wops : WatchesOps W) (q : String) (answer : List RR)
    (w : W) : W :=
  (handleAnswers wops q answer
    (handleAnswers wops q answer { watches := w, trace := [], log := [] }
      [(TypeDNAME, handleDNAME wops)])
    [(TypeCNAME, handleCNAME wops)]).watches

/-- The `AddTempDNAME` calls in a trace, in order. -/
def dnameCallsOf (tr : List Effect) : List Effect :=
  tr.filter fun e => match e with
    | .addTempDNAME _ _ => true
    | _ => false

/-- The `AddTempCNAME` calls in a trace, in order. -/
def cnameCallsOf (tr : List Effect) : List Effect :=
  tr.filter fun e => match e with
    | .addTempCNAME _ _ => true
    | _ => false

/-- The calls of the records of type `typ` that are watched when the pass
with handler map `m`, started on the watch list `w`, visits them: each record
of `answer` is taken with the records before it, and it contributes its call
when the question name or its owner name is on the watch list the pass has
reached after those records; every other record contributes nothing. -/
def watchedCalls {W : Type} (wops : WatchesOps W) (q : String) (m : HandlerMap W) (typ : Nat)
    (call : RR → Option Effect) (answer : List RR) (w : W) : List Effect :=
  (answer.inits.zip answer).filterMap fun pa =>
    if watched wops
        (handleAnswers wops q pa.1 { watches := w, trace := [], log := [] } m).watches
        q pa.2 = true ∧ pa.2.Header.Rrtype = typ
    then call pa.2 else none

/-- In the trace `l`, every report is directly followed by the wait for it. -/
def Followed (l : List Effect) : Prop :=
  ∀ i rep, l[i]? = some (Effect.report rep) → l[i + 1]? = some (Effect.wait rep)

/-! ## Reference implementations of the watch list and the remotes map -/

/-- Modelled from the spec: a helper of the suffix match of `Watches` and
`Remotes`, whose source files are missing: the suffixes of a name that start
right after one of its dots. -/
def afterDots : List Char → List (List Char)
  | [] => []
  | c :: cs => if c = '.' then cs :: afterDots cs else afterDots cs

/-- Modelled from the spec: a helper of the suffix match of `Watches` and
`Remotes`, whose source files are missing: a name followed by its ancestors,
from the longest to the shortest. -/
def ancestors (name : String) : List String :=
  (name.data :: afterDots name.data).map String.mk

/-- Modelled from the spec: the watch list `Watches`, whose source file is
missing.  It is a set of names plus a secondary collection of temporary
watches with expiry timestamps; a name matches when it or one of its
ancestors is in the set (suffix match); a temporary watch expires at
`now + ttl`; at most 10 000 temporary entries are kept, the oldest being
evicted beyond that. -/
structure Watches where
  now : Nat
  domains : List String
  temp : List (String × Nat)
deriving DecidableEq, Repr

/-- Modelled from the spec: membership of a name in the watch list `Watches`,
whose source file is missing: suffix match against the permanent names and
the temporary watches that have not expired. -/
def Watches.Contains (w : Watches) (name : String) : Bool :=
  (ancestors name).any fun d =>
    w.domains.contains d || w.temp.any fun t => t.1 == d && decide (w.now < t.2)

/-- Modelled from the spec: adding a temporary watch to `Watches`, whose
source file is missing, expiring at `now + ttl` and bounded to 10 000
entries. -/
def Watches.addTemp (w : Watches) (target : String) (ttl : Nat) : Watches :=
  let t := w.temp ++ [(target, w.now + ttl)]
  { w with temp := t.drop (t.length - 10000) }

/-- Modelled from the spec: the operations of `Watches`, whose source file is
missing; replacing the watches also clears the temporary watches. -/
def specWatches : WatchesOps Watches where
  Contains := Watches.Contains
  AddTempDNAME := Watches.addTemp
  AddTempCNAME := Watches.addTemp
  Flush := fun w => { w with domains := [], temp := [] }
  Add := fun w d => { w with domains := w.domains ++ [d] }

/-- Modelled from the spec: the map `Remotes`, whose source file is missing,
from DNS names to lists of upstream servers. -/
structure Remotes where
  m : List (String × List String)
deriving DecidableEq, Repr

/-- Modelled from the spec: lookup in `Remotes`, whose source file is
missing: the longest suffix of the name wins and `"."` is the catch-all. -/
def Remotes.Get (r : Remotes) (name : String) : List String :=
  match ((ancestors name).filterMap fun d => r.m.lookup d).head? with
  | some l => l
  | none => (r.m.lookup ".").getD []

/-- Modelled from the spec: the operations of `Remotes`, whose source file is
missing. -/
def specRemotes : RemotesOps Remotes where
  Get := Remotes.Get
  Flush := fun _ => ⟨[]⟩
  Add := fun r d s => ⟨(d, s) :: r.m⟩

/-! ## The scenario of a watched exclude -/

/-- The client query for `api.intra.example.com`. -/
def exampleQuery : Msg :=
  { Question := [⟨"api.intra.example.com"⟩], Answer := [] }

/-- The upstream reply: a CNAME to `api.internal.example.com` and its
address, both with TTL 60. -/
def exampleReply : Msg :=
  { Question := [⟨"api.intra.example.com"⟩]
    Answer :=
      [ RR.CNAME ⟨"api.intra.example.com", TypeCNAME, 60⟩ "api.internal.example.com",
        RR.A ⟨"api.internal.example.com", TypeA, 60⟩ [192, 0, 2, 10] ] }

/-- An environment whose upstream answers every request with `exampleReply`. -/
def exampleEnv : Env :=
  { Intn := fun _ => 0, Exchange := fun _ _ => some exampleReply, WriteMsgErr := fun _ => false }

/-- A client query for a name that is not watched by `exampleProxy`. -/
def unwatchedQuery : Msg :=
  { Question := [⟨"www.example.org"⟩], Answer := [] }

/-- An upstream reply with a DNAME, a CNAME and an address, none of them for a
name watched by `exampleProxy`. -/
def unwatchedReply : Msg :=
  { Question := [⟨"www.example.org"⟩]
    Answer :=
      [ RR.DNAME ⟨"example.org", TypeDNAME, 300⟩ "example.net",
        RR.CNAME ⟨"www.example.org", TypeCNAME, 300⟩ "www.example.net",
        RR.A ⟨"www.example.net", TypeA, 300⟩ [198, 51, 100, 7] ] }

/-- An environment whose upstream answers every request with `unwatchedReply`. -/
def unwatchedEnv : Env :=
  { Intn := fun _ => 0, Exchange := fun _ _ => some unwatchedReply, WriteMsgErr := fun _ => false }

/-- An environment whose upstream never answers. -/
def outageEnv : Env :=
  { Intn := fun _ => 0, Exchange := fun _ _ => none, WriteMsgErr := fun _ => false }

/-- A proxy with the catch-all upstream `10.0.0.1:53` that watches
`intra.example.com`. -/
def exampleProxy : Proxy Remotes Watches :=
  { remotes := ⟨[(".", ["10.0.0.1:53"])]⟩
    watches := { now := 1000, domains := ["intra.example.com"], temp := [] } }

end dnsproxy

namespace vpnsetup

open dnsproxy (IP Report Proxy RemotesOps WatchesOps)

/-! ## Data model of the VPN setup orchestrator -/

/-- Command type `commandSetup`. -/
def commandSetup : Nat := 0
/-- Command type `commandTeardown`. -/
def commandTeardown : Nat := 1

/-- Event type `EventSetupOK`. -/
def EventSetupOK : Nat := 0
/-- Event type `EventTeardownOK`. -/
def EventTeardownOK : Nat := 1

/-- A VPNSetup event; the field is `Type` in the source. -/
structure Event where
  Type_ : Nat
deriving DecidableEq, Repr

/-- Modelled from the spec: the device part of `vpnconfig.Config`, whose
declaration is missing: name and MTU. -/
structure Device where
  Name : String
  MTU : Int
deriving DecidableEq, Repr

/-- Modelled from the spec: an address part (`IPv4`, `IPv6`) of
`vpnconfig.Config`, whose declaration is missing: address and netmask, both
byte slices. -/
structure AddressConfig where
  Address : IP
  Netmask : List Nat
deriving DecidableEq, Repr

/-- Modelled from the spec: the DNS part of `vpnconfig.Config`, whose
declaration is missing. -/
structure DNS where
  DefaultDomain : String
  ServersIPv4 : List String
  ServersIPv6 : List String
deriving DecidableEq, Repr

/-- Modelled from the spec: the split routing part of `vpnconfig.Config`,
whose declaration is missing. -/
structure Split where
  ExcludeIPv4 : List String
  ExcludeIPv6 : List String
  ExcludeDomains : List String
  ExcludeVirtualSubnetsOnlyIPv4 : Bool
  ExcludeDNS : List String
deriving DecidableEq, Repr

/-- Modelled from the spec: the VPN configuration `vpnconfig.Config`, whose
declaration is missing. -/
structure Config where
  Device : Device
  IPv4 : AddressConfig
  IPv6 : AddressConfig
  DNS : DNS
  Split : Split
deriving DecidableEq, Repr

/-- A VPNSetup command. -/
structure command where
  cmd : Nat
  vpnconf : Config
deriving DecidableEq, Repr

/-- Modelled from the spec: the configuration `splitrt.Config` of split
routing, whose declaration is missing. -/
structure SplitrtConfig where
  RoutingTable : String
  RulePriority1 : String
  RulePriority2 : String
  FirewallMark : String
deriving DecidableEq, Repr

/-- Modelled from the spec: the configuration `dnsproxy.Config` of the DNS
proxy, whose declaration is missing. -/
structure ProxyConfig where
  Address : String
  ListenUDP : Bool
  ListenTCP : Bool
deriving DecidableEq, Repr

/-- Modelled from the spec: the type `splitrt.SplitRouting`, whose
declaration is missing.  An instance is identified by the arguments of the
call `splitrt.NewSplitRouting(v.splitrtConf, vpnconf)` that created it. -/
structure SplitRouting where
  config : SplitrtConfig
  vpnconf : Config
deriving DecidableEq, Repr

/-- Modelled from the spec: the constructor `splitrt.NewSplitRouting`, whose
code is missing. -/
def NewSplitRouting (config : SplitrtConfig) (vpnconf : Config) : SplitRouting :=
  ⟨config, vpnconf⟩

/-- Library functions and methods of the VPN configuration whose code is not
part of the sources at hand; the orchestrator is parametric in them. -/
structure Lib where
  /-- The function `strconv.Itoa`. -/
  Itoa : Int → String
  /-- The method `String()` of `net.IPNet` for an address and a mask. -/
  IPNetString : IP → List Nat → String
  /-- The method `Remotes()` of the DNS configuration. -/
  Remotes : DNS → List (String × List String)
  /-- The method `DNSExcludes()` of the split routing configuration. -/
  DNSExcludes : Split → List String

/-- The effects of the orchestrator on its environment. -/
inductive Effect where
  /-- The call `execs.RunIPLink(ctx, args...)`, that is `ip link args...`. -/
  | RunIPLink (args : List String)
  /-- The call `execs.RunIPAddress(ctx, args...)`, that is `ip address args...`. -/
  | RunIPAddress (args : List String)
  /-- The call `execs.RunResolvectl(ctx, args...)`, that is `resolvectl args...`. -/
  | RunResolvectl (args : List String)
  /-- The call `Start()` on a newly created split routing instance. -/
  | splitrtStart (s : SplitRouting)
  /-- The call `Stop()` on the split routing instance. -/
  | splitrtStop (s : SplitRouting)
  /-- The call `v.dnsProxy.SetRemotes(remotes)`. -/
  | SetRemotes (remotes : List (String × List String))
  /-- The call `v.dnsProxy.SetWatches(watches)`. -/
  | SetWatches (watches : List String)
  /-- The send `v.events <- event`. -/
  | sendEvent (event : Event)
  /-- The send `v.splitrt.DNSReports() <- r`. -/
  | sendDNSReport (r : Report)
  /-- Raising the `done` signal of a report. -/
  | reportDone (r : Report)
deriving DecidableEq, Repr

/-- The environment of the orchestrator.  Both oracles see the effects
performed so far, so that the same command may fail at one point and succeed
at another. -/
structure Env where
  /-- Whether the external command returns an error. -/
  RunCmdErr : List Effect → Effect → Bool
  /-- Whether a `select` between a channel send and `<-v.done` takes the case
  `<-v.done`, which is possible once the orchestrator has been stopped. -/
  done : List Effect → Bool

/-- The fields of `VPNSetup` the handlers work on. -/
structure VPNSetup (R W : Type) where
  splitrt : Option SplitRouting
  splitrtConf : SplitrtConfig
  dnsProxy : Proxy R W
  dnsProxyConf : ProxyConfig

/-- The state threaded through the handlers: the orchestrator, the trace of
effects performed so far and the log. -/
structure State (R W : Type) where
  v : VPNSetup R W
  trace : List Effect
  log : List String

section Orchestrator

variable {R W : Type}

/-- Run an external command: the command is appended to the trace and the
environment tells whether it returned an error. -/
def run (env : Env) (e : Effect) (s : State R W) : State R W × Bool :=
  ({ s with trace := s.trace ++ [e] }, env.RunCmdErr s.trace e)

/-- Write a log message. -/
def logMsg (msg : String) (s : State R W) : State R W :=
  { s with log := s.log ++ [msg] }

/-- The method `sendEvent`. -/
def sendEvent (env : Env) (event : Event) (s : State R W) : State R W :=
  if env.done s.trace then s
  else { s with trace := s.trace ++ [Effect.sendEvent event] }

/-- The closure `setupIP` of `setupVPNDevice`. -/
def setupIP (lib : Lib) (env : Env) (c : Config) (ip : IP) (mask : List Nat)
    (s : State R W) : State R W :=
  let dev := c.Device.Name
  let addr := lib.IPNetString ip mask
  let (s, err) := run env (Effect.RunIPAddress ["add", addr, "dev", dev]) s
  if err then logMsg "Daemon could not set ip on device" s else s

/-- The function `setupVPNDevice`. -/
def setupVPNDevice (lib : Lib) (env : Env) (c : Config) (s : State R W) : State R W :=
  -- set mtu on device
  let mtu := lib.Itoa c.Device.MTU
  let (s, err) := run env (Effect.RunIPLink ["set", c.Device.Name, "mtu", mtu]) s
  if err then logMsg "Daemon could not set mtu on device" s
  else
    -- set device up
    let (s, err) := run env (Effect.RunIPLink ["set", c.Device.Name, "up"]) s
    if err then logMsg "Daemon could not set device up" s
    else
      -- set ipv4 and ipv6 addresses on device
      let s := if c.IPv4.Address.length > 0 then
        setupIP lib env c c.IPv4.Address c.IPv4.Netmask s else s
      let s := if c.IPv6.Address.length > 0 then
        setupIP lib env c c.IPv6.Address c.IPv6.Netmask s else s
      s

/-- The function `teardownVPNDevice`. -/
def teardownVPNDevice (env : Env) (c : Config) (s : State R W) : State R W :=
  let (s, err) := run env (Effect.RunIPLink ["set", c.Device.Name, "down"]) s
  if err then logMsg "Daemon could not set device down" s else s

/-- The method `setupRouting`. -/
def setupRouting (vpnconf : Config) (s : State R W) : State R W :=
  match s.v.splitrt with
  | some _ => s
  | none =>
    let sr := NewSplitRouting s.v.splitrtConf vpnconf
    { s with v := { s.v with splitrt := some sr }, trace := s.trace ++ [Effect.splitrtStart sr] }

/-- The method `teardownRouting`. -/
def teardownRouting (s : State R W) : State R W :=
  match s.v.splitrt with
  | none => s
  | some sr =>
    { s with v := { s.v with splitrt := none }, trace := s.trace ++ [Effect.splitrtStop sr] }

/-- The call `v.dnsProxy.SetRemotes(remotes)`. -/
def setRemotes (rops : RemotesOps R) (remotes : List (String × List String))
    (s : State R W) : State R W :=
  { s with v := { s.v with dnsProxy := s.v.dnsProxy.SetRemotes rops remotes }
           trace := s.trace ++ [Effect.SetRemotes remotes] }

/-- The call `v.dnsProxy.SetWatches(watches)`. -/
def setWatches (wops : WatchesOps W) (watches : List String) (s : State R W) : State R W :=
  { s with v := { s.v with dnsProxy := s.v.dnsProxy.SetWatches wops watches }
           trace := s.trace ++ [Effect.SetWatches watches] }

/-- Run a `resolvectl` command and log the given message if it fails. -/
def resolvectl (env : Env) (args : List String) (msg : String) (s : State R W) : State R W :=
  let (s, err) := run env (Effect.RunResolvectl args) s
  if err then logMsg msg s else s

/-- The method `setupDNS`. -/
def setupDNS (lib : Lib) (rops : RemotesOps R) (wops : WatchesOps W) (env : Env)
    (config : Config) (s : State R W) : State R W :=
  -- set remotes
  let remotes := lib.Remotes config.DNS
  let s := setRemotes rops remotes s
  -- set watches
  let excludes := lib.DNSExcludes config.Split
  let s := logMsg "Daemon setting DNS Split Excludes" s
  let s := setWatches wops excludes s
  -- update dns configuration of host
  let device := config.Device.Name
  let s := resolvectl env ["dns", device, s.v.dnsProxyConf.Address]
    "VPNSetup error setting dns server" s
  let s := resolvectl env ["domain", device, config.DNS.DefaultDomain, "~."]
    "VPNSetup error setting dns domains" s
  let s := resolvectl env ["default-route", device, "yes"]
    "VPNSetup error setting dns default route" s
  let s := resolvectl env ["flush-caches"]
    "VPNSetup error flushing dns caches during setup" s
  resolvectl env ["reset-server-features"]
    "VPNSetup error resetting server features during setup" s

/-- The method `teardownDNS`. -/
def teardownDNS (rops : RemotesOps R) (wops : WatchesOps W) (env : Env)
    (vpnconf : Config) (s : State R W) : State R W :=
  -- reset remotes
  let s := setRemotes rops [] s
  -- reset watches
  let s := setWatches wops [] s
  -- update dns configuration of host
  let s := resolvectl env ["revert", vpnconf.Device.Name]
    "VPNSetup error reverting dns configuration" s
  let s := resolvectl env ["flush-caches"]
    "VPNSetup error flushing dns caches during teardown" s
  resolvectl env ["reset-server-features"]
    "VPNSetup error resetting server features during teardown" s

/-- The method `setup`. -/
def setup (lib : Lib) (rops : RemotesOps R) (wops : WatchesOps W) (env : Env)
    (vpnconf : Config) (s : State R W) : State R W :=
  let s := setupVPNDevice lib env vpnconf s
  let s := setupRouting vpnconf s
  let s := setupDNS lib rops wops env vpnconf s
  sendEvent env ⟨EventSetupOK⟩ s

/-- The method `teardown`. -/
def teardown (rops : RemotesOps R) (wops : WatchesOps W) (env : Env)
    (vpnconf : Config) (s : State R W) : State R W :=
  let s := teardownVPNDevice env vpnconf s
  let s := teardownRouting s
  let s := teardownDNS rops wops env vpnconf s
  sendEvent env ⟨EventTeardownOK⟩ s

/-- The method `handleCommand`. -/
def handleCommand (lib : Lib) (rops : RemotesOps R) (wops : WatchesOps W) (env : Env)
    (c : command) (s : State R W) : State R W :=
  if c.cmd = commandSetup then setup lib rops wops env c.vpnconf s
  else if c.cmd = commandTeardown then teardown rops wops env c.vpnconf s
  else s

/-- The method `handleDNSReport`. -/
def handleDNSReport (env : Env) (r : Report) (s : State R W) : State R W :=
  let s := logMsg "Daemon handling DNS report" s
  match s.v.splitrt with
  | none => s
  | some _ =>
    -- forward report to split routing
    if env.done s.trace then s
    else { s with trace := s.trace ++ [Effect.sendDNSReport r] }

/-- The constructor `NewVPNSetup`, given the state of a new DNS proxy. -/
def NewVPNSetup (dnsProxy : Proxy R W) (dnsProxyConfig : ProxyConfig)
    (splitrtConfig : SplitrtConfig) : VPNSetup R W :=
  { splitrt := none, splitrtConf := splitrtConfig
    dnsProxy := dnsProxy, dnsProxyConf := dnsProxyConfig }

end Orchestrator

/-! ## The sequences of the specification -/

/-- The setup sequence as the specification lists it, up to the event, for
an orchestrator `v` whose split routing is not running: MTU, device up, one
address per family present, start of split routing, remotes and watches of
the DNS proxy, the five `resolvectl` commands. -/
def specSetupSequence {R W : Type} (lib : Lib) (c : Config) (v : VPNSetup R W) : List Effect :=
  [ Effect.RunIPLink ["set", c.Device.Name, "mtu", lib.Itoa c.Device.MTU],
    Effect.RunIPLink ["set", c.Device.Name, "up"] ] ++
  (if c.IPv4.Address.length > 0 then
    [Effect.RunIPAddress
      ["add", lib.IPNetString c.IPv4.Address c.IPv4.Netmask, "dev", c.Device.Name]]
   else []) ++
  (if c.IPv6.Address.length > 0 then
    [Effect.RunIPAddress
      ["add", lib.IPNetString c.IPv6.Address c.IPv6.Netmask, "dev", c.Device.Name]]
   else []) ++
  [ Effect.splitrtStart (NewSplitRouting v.splitrtConf c),
    Effect.SetRemotes (lib.Remotes c.DNS),
    Effect.SetWatches (lib.DNSExcludes c.Split),
    Effect.RunResolvectl ["dns", c.Device.Name, v.dnsProxyConf.Address],
    Effect.RunResolvectl ["domain", c.Device.Name, c.DNS.DefaultDomain, "~."],
    Effect.RunResolvectl ["default-route", c.Device.Name, "yes"],
    Effect.RunResolvectl ["flush-caches"],
    Effect.RunResolvectl ["reset-server-features"] ]

/-- The DNS steps of the setup sequence as the specification lists them. -/
def specSetupDNS {R W : Type} (lib : Lib) (c : Config) (v : VPNSetup R W) : List Effect :=
  [ Effect.SetRemotes (lib.Remotes c.DNS),
    Effect.SetWatches (lib.DNSExcludes c.Split),
    Effect.RunResolvectl ["dns", c.Device.Name, v.dnsProxyConf.Address],
    Effect.RunResolvectl ["domain", c.Device.Name, c.DNS.DefaultDomain, "~."],
    Effect.RunResolvectl ["default-route", c.Device.Name, "yes"],
    Effect.RunResolvectl ["flush-caches"],
    Effect.RunResolvectl ["reset-server-features"] ]

/-- The teardown sequence as the specification lists it, up to the event:
device down, stop of split routing when it is running, empty remotes and
watches of the DNS proxy, the three `resolvectl` commands. -/
def specTeardownSequence {R W : Type} (c : Config) (v : VPNSetup R W) : List Effect :=
  [ Effect.RunIPLink ["set", c.Device.Name, "down"] ] ++
  (match v.splitrt with
    | some sr => [Effect.splitrtStop sr]
    | none => []) ++
  [ Effect.SetRemotes [],
    Effect.SetWatches [],
    Effect.RunResolvectl ["revert", c.Device.Name],
    Effect.RunResolvectl ["flush-caches"],
    Effect.RunResolvectl ["reset-server-features"] ]

/-! ## The scenario of a simple connect and disconnect -/

/-- A stand-in for the library: decimal numbers, dotted addresses with the
number of leading `255` bytes of the mask times eight as prefix length, the
DNS servers as catch-all remotes and the DNS excludes as they are. -/
def exampleLib : Lib where
  Itoa := fun n => toString n
  IPNetString := fun ip mask =>
    String.intercalate "." (ip.map toString) ++ "/" ++
      toString (8 * (mask.takeWhile (· == 255)).length)
  Remotes := fun dns => [(".", dns.ServersIPv4 ++ dns.ServersIPv6)]
  DNSExcludes := fun split => split.ExcludeDNS

/-- The VPN configuration of the scenario. -/
def exampleConfig : Config where
  Device := { Name := "oc-daemon-tun0", MTU := 1300 }
  IPv4 := { Address := [10, 0, 0, 2], Netmask := [255, 255, 255, 255] }
  IPv6 := { Address := [], Netmask := [] }
  DNS := { DefaultDomain := "example.com", ServersIPv4 := ["10.0.0.1:53"], ServersIPv6 := [] }
  Split :=
    { ExcludeIPv4 := [], ExcludeIPv6 := [], ExcludeDomains := []
      ExcludeVirtualSubnetsOnlyIPv4 := false, ExcludeDNS := ["intra.example.com"] }

/-- A second VPN configuration, with another device, address and resolver. -/
def otherConfig : Config where
  Device := { Name := "tun1", MTU := 1400 }
  IPv4 := { Address := [], Netmask := [] }
  IPv6 := { Address := [], Netmask := [] }
  DNS := { DefaultDomain := "example.org", ServersIPv4 := ["10.9.9.9:53"], ServersIPv6 := [] }
  Split :=
    { ExcludeIPv4 := [], ExcludeIPv6 := [], ExcludeDomains := []
      ExcludeVirtualSubnetsOnlyIPv4 := false, ExcludeDNS := ["corp.example.org"] }

/-- An environment in which every command succeeds and the orchestrator is
not stopped. -/
def okEnv : Env where
  RunCmdErr := fun _ _ => false
  done := fun _ => false

/-- An environment in which every command fails and the orchestrator is not
stopped. -/
def failEnv : Env where
  RunCmdErr := fun _ _ => true
  done := fun _ => false

/-- An environment in which every command succeeds and the orchestrator has
been stopped. -/
def stoppedEnv : Env where
  RunCmdErr := fun _ _ => false
  done := fun _ => true

/-- The orchestrator as created by `NewVPNSetup`, before any command. -/
def idle : State dnsproxy.Remotes dnsproxy.Watches where
  v := NewVPNSetup { remotes := ⟨[]⟩, watches := { now := 1000, domains := [], temp := [] } }
    { Address := "127.0.0.1:4253", ListenUDP := true, ListenTCP := true }
    { RoutingTable := "42111", RulePriority1 := "2111", RulePriority2 := "2112",
      FirewallMark := "42111" }
  trace := []
  log := []

/-- The orchestrator after a first Setup command with `exampleConfig`, all
commands having succeeded. -/
def up : State dnsproxy.Remotes dnsproxy.Watches :=
  handleCommand exampleLib dnsproxy.specRemotes dnsproxy.specWatches okEnv
    ⟨commandSetup, exampleConfig⟩ idle

end vpnsetup

namespace trafpol

/-! ## The allowed devices of traffic policing -/

/-- A Go map from strings to strings, as the list of its entries with at most
one entry per key; the order of the list stands for the unspecified order in
which `range` visits the entries. -/
abbrev StringMap := List (String × String)

/-- The index expression `m[k]` of a Go map: the value stored under `k`, or
the zero value `""` when there is none. -/
def mapIndex (m : StringMap) (k : String) : String :=
  (m.lookup k).getD ""

/-- The assignment `m[k] = v` of a Go map. -/
def mapAssign (m : StringMap) (k v : String) : StringMap :=
  (k, v) :: m.filter fun e => e.1 != k

/-- The call `delete(m, k)` of a Go map. -/
def mapDelete (m : StringMap) (k : String) : StringMap :=
  m.filter fun e => e.1 != k

/-- The type `AllowDevs`. -/
structure AllowDevs where
  m : StringMap
deriving DecidableEq, Repr

/-- The nft deltas pushed by the allowed devices: the calls of
`addAllowedDevice(ctx, device)` and `removeAllowedDevice(ctx, device)`. -/
inductive Effect where
  | addAllowedDevice (device : String)
  | removeAllowedDevice (device : String)
deriving DecidableEq, Repr

/-- The state threaded through the methods of `AllowDevs`: the allowed devices
and the trace of the nft deltas pushed so far. -/
structure State where
  a : AllowDevs
  trace : List Effect
deriving DecidableEq, Repr

/-- The method `Add`. -/
def AllowDevs.Add (device : String) (s : State) : State :=
  if mapIndex s.a.m device != device then
    { a := { m := mapAssign s.a.m device device }
      trace := s.trace ++ [Effect.addAllowedDevice device] }
  else s

/-- The method `Remove`. -/
def AllowDevs.Remove (device : String) (s : State) : State :=
  if mapIndex s.a.m device == device then
    { a := { m := mapDelete s.a.m device }
      trace := s.trace ++ [Effect.removeAllowedDevice device] }
  else s

/-- The method `List`. -/
def AllowDevs.List (a : AllowDevs) : List String :=
  a.m.map fun e => e.2

/-- The constructor `NewAllowDevs`. -/
def NewAllowDevs : AllowDevs :=
  { m := [] }

/-- The states of `AllowDevs` a program can get to: it starts from
`NewAllowDevs` and only `Add` and `Remove` write to the map. -/
inductive Reachable : AllowDevs → Prop where
  | new : Reachable NewAllowDevs
  | add (device : String) (s : State) : Reachable s.a → Reachable (AllowDevs.Add device s).a
  | remove (device : String) (s : State) :
      Reachable s.a → Reachable (AllowDevs.Remove device s).a

/-- The invariant of the map of `AllowDevs`: no key occurs twice and every
device is stored under its own name. -/
def AllowDevs.valid (a : AllowDevs) : Prop :=
  (a.m.map fun e => e.1).Nodup ∧ ∀ e ∈ a.m, e.2 = e.1

instance (a : AllowDevs) : Decidable a.valid := by
  unfold AllowDevs.valid
  infer_instance

/-- Traffic policing with the allowed devices `lo`, before any nft delta. -/
def loOnly : State :=
  { a := { m := [("lo", "lo")] }, trace := [] }

/-- A new `AllowDevs`, before any nft delta. -/
def fresh : State :=
  { a := NewAllowDevs, trace := [] }

end trafpol

namespace dnsproxy

/-! ## Lemmas on the answer loop -/

section Lemmas

variable {R W : Type}

theorem lookup_single {β : Type} (k t : Nat) (h : β) :
    List.lookup t [(k, h)] = if t = k then some h else none := by
  by_cases hk : t = k
  · have hb : (t == k) = true := beq_iff_eq.mpr hk
    simp [List.lookup, hb, hk]
  · have hb : (t == k) = false := beq_eq_false_iff_ne.mpr hk
    simp [List.lookup, hb, hk]

theorem lookup_pair {β : Type} (k1 k2 t : Nat) (h1 h2 : β) :
    List.lookup t [(k1, h1), (k2, h2)] =
      if t = k1 then some h1 else if t = k2 then some h2 else none := by
  by_cases hk : t = k1
  · have hb : (t == k1) = true := beq_iff_eq.mpr hk
    simp [List.lookup, hb, hk]
  · have hb : (t == k1) = false := beq_eq_false_iff_ne.mpr hk
    have h := lookup_single k2 t h2
    simp only [List.lookup, hb] at h ⊢
    simp [hk, h]

theorem handleAnswer_dname (wops : WatchesOps W) (q : String) (s : State W) (a : RR) :
    handleAnswer wops q [(TypeDNAME, handleDNAME wops)] s a =
      if watched wops s.watches q a = true ∧ a.Header.Rrtype = TypeDNAME then
        handleDNAME wops a s else s := by
  simp only [handleAnswer, watched, lookup_single]
  by_cases h1 : wops.Contains s.watches q = true <;>
  by_cases h2 : wops.Contains s.watches a.Header.Name = true <;>
  by_cases h3 : a.Header.Rrtype = TypeDNAME <;>
  simp [h1, h2, h3]

theorem handleAnswer_cname (wops : WatchesOps W) (q : String) (s : State W) (a : RR) :
    handleAnswer wops q [(TypeCNAME, handleCNAME wops)] s a =
      if watched wops s.watches q a = true ∧ a.Header.Rrtype = TypeCNAME then
        handleCNAME wops a s else s := by
  simp only [handleAnswer, watched, lookup_single]
  by_cases h1 : wops.Contains s.watches q = true <;>
  by_cases h2 : wops.Contains s.watches a.Header.Name = true <;>
  by_cases h3 : a.Header.Rrtype = TypeCNAME <;>
  simp [h1, h2, h3]

theorem handleAnswer_addr (wops : WatchesOps W) (q : String) (s : State W) (a : RR) :
    handleAnswer wops q [(TypeA, handleA), (TypeAAAA, handleAAAA)] s a =
      if watched wops s.watches q a = true then
        (if a.Header.Rrtype = TypeA then handleA a s
         else if a.Header.Rrtype = TypeAAAA then handleAAAA a s else s)
      else s := by
  simp only [handleAnswer, watched, lookup_pair]
  by_cases h1 : wops.Contains s.watches q = true <;>
  by_cases h2 : wops.Contains s.watches a.Header.Name = true <;>
  by_cases h3 : a.Header.Rrtype = TypeA <;>
  by_cases h4 : a.Header.Rrtype = TypeAAAA <;>
  simp [h1, h2, h3, h4, (by decide : TypeAAAA ≠ TypeA)]

/-- One step of the address pass leaves the watch list alone and appends the
report of the record, followed by the wait for it, when the record is watched. -/
theorem handleAnswer_addr_spec (wops : WatchesOps W) (q : String) (s : State W) (a : RR) :
    (handleAnswer wops q [(TypeA, handleA), (TypeAAAA, handleAAAA)] s a).watches = s.watches ∧
    (handleAnswer wops q [(TypeA, handleA), (TypeAAAA, handleAAAA)] s a).trace =
      s.trace ++ ((if watched wops s.watches q a = true then addrReport a else none).toList.flatMap
        fun r => [Effect.report r, Effect.wait r]) := by
  rw [handleAnswer_addr]
  have hne : TypeAAAA ≠ TypeA := by decide
  have hne2 : TypeA ≠ TypeAAAA := by decide
  by_cases hw : watched wops s.watches q a = true
  · by_cases h3 : a.Header.Rrtype = TypeA <;> by_cases h4 : a.Header.Rrtype = TypeAAAA <;>
      cases a <;> simp_all [RR.Header, handleA, handleAAAA, addrReport, NewReport]
  · simp [hw]

/-- The address pass: the watch list is unchanged and the trace grows by one
report-and-wait pair per watched address record, in answer order. -/
theorem handleAnswers_addr (wops : WatchesOps W) (q : String) (answer : List RR)
    (s : State W) :
    (handleAnswers wops q answer s [(TypeA, handleA), (TypeAAAA, handleAAAA)]).watches
      = s.watches ∧
    (handleAnswers wops q answer s [(TypeA, handleA), (TypeAAAA, handleAAAA)]).trace =
      s.trace ++ ((answer.filterMap fun a =>
        if watched wops s.watches q a = true then addrReport a else none).flatMap
          fun r => [Effect.report r, Effect.wait r]) := by
  induction answer generalizing s with
  | nil => simp [handleAnswers]
  | cons a rest ih =>
    have hstep := handleAnswer_addr_spec wops q s a
    have hrest := ih (handleAnswer wops q [(TypeA, handleA), (TypeAAAA, handleAAAA)] s a)
    simp only [handleAnswers, List.foldl_cons] at hrest ⊢
    refine ⟨hrest.1.trans hstep.1, ?_⟩
    rw [hrest.2, hstep.2, hstep.1]
    cases hopt : (if watched wops s.watches q a = true then addrReport a else none) with
    | none => simp [List.filterMap_cons, hopt]
    | some r => simp [List.filterMap_cons, hopt]

/-- One step of the DNAME pass: either nothing is appended to the trace, or
the call for the DNAME record is; the new watch list depends on the old one
only. -/
theorem handleAnswer_dname_spec (wops : WatchesOps W) (q : String) (s : State W) (a : RR) :
    ((handleAnswer wops q [(TypeDNAME, handleDNAME wops)] s a).trace = s.trace ∨
     (handleAnswer wops q [(TypeDNAME, handleDNAME wops)] s a).trace =
        s.trace ++ (dnameCall a).toList) ∧
    ∀ s' : State W, s'.watches = s.watches →
      (handleAnswer wops q [(TypeDNAME, handleDNAME wops)] s' a).watches =
      (handleAnswer wops q [(TypeDNAME, handleDNAME wops)] s a).watches := by
  constructor
  · rw [handleAnswer_dname]
    by_cases hc : watched wops s.watches q a = true ∧ a.Header.Rrtype = TypeDNAME
    · rw [if_pos hc]
      cases a <;> simp [handleDNAME, dnameCall]
    · rw [if_neg hc]; exact Or.inl rfl
  · intro s' hs
    rw [handleAnswer_dname, handleAnswer_dname, hs]
    by_cases hc : watched wops s.watches q a = true ∧ a.Header.Rrtype = TypeDNAME
    · rw [if_pos hc, if_pos hc]
      cases a <;> simp [handleDNAME, hs]
    · rw [if_neg hc, if_neg hc]; exact hs

/-- One step of the CNAME pass, as for the DNAME pass. -/
theorem handleAnswer_cname_spec (wops : WatchesOps W) (q : String) (s : State W) (a : RR) :
    ((handleAnswer wops q [(TypeCNAME, handleCNAME wops)] s a).trace = s.trace ∨
     (handleAnswer wops q [(TypeCNAME, handleCNAME wops)] s a).trace =
        s.trace ++ (cnameCall a).toList) ∧
    ∀ s' : State W, s'.watches = s.watches →
      (handleAnswer wops q [(TypeCNAME, handleCNAME wops)] s' a).watches =
      (handleAnswer wops q [(TypeCNAME, handleCNAME wops)] s a).watches := by
  constructor
  · rw [handleAnswer_cname]
    by_cases hc : watched wops s.watches q a = true ∧ a.Header.Rrtype = TypeCNAME
    · rw [if_pos hc]
      cases a <;> simp [handleCNAME, cnameCall]
    · rw [if_neg hc]; exact Or.inl rfl
  · intro s' hs
    rw [handleAnswer_cname, handleAnswer_cname, hs]
    by_cases hc : watched wops s.watches q a = true ∧ a.Header.Rrtype = TypeCNAME
    · rw [if_pos hc, if_pos hc]
      cases a <;> simp [handleCNAME, hs]
    · rw [if_neg hc, if_neg hc]; exact hs

/-- A pass whose steps append at most the call `call a` of the visited record
appends the calls of a sublist of the answer section, in answer order. -/
theorem handleAnswers_calls (wops : WatchesOps W) (q : String) (m : HandlerMap W)
    (call : RR → Option Effect)
    (hstep : ∀ (s : State W) (a : RR), (handleAnswer wops q m s a).trace = s.trace ∨
      (handleAnswer wops q m s a).trace = s.trace ++ (call a).toList)
    (answer : List RR) (s : State W) :
    ∃ l : List RR, l.Sublist answer ∧
      (handleAnswers wops q answer s m).trace = s.trace ++ l.filterMap call := by
  induction answer generalizing s with
  | nil => exact ⟨[], List.Sublist.slnil, by simp [handleAnswers]⟩
  | cons a rest ih =>
    obtain ⟨l, hl, htr⟩ := ih (handleAnswer wops q m s a)
    simp only [handleAnswers, List.foldl_cons] at htr ⊢
    rcases hstep s a with h | h
    · exact ⟨l, hl.cons a, by rw [htr, h]⟩
    · refine ⟨a :: l, hl.cons₂ a, ?_⟩
      rw [htr, h]
      cases hc : call a <;> simp [List.filterMap_cons, hc]

/-- The watch list a pass ends with depends on the watch list it starts with
only, not on the trace or the log. -/
theorem handleAnswers_watches_congr (wops : WatchesOps W) (q : String) (m : HandlerMap W)
    (hstep : ∀ (s s' : State W) (a : RR), s'.watches = s.watches →
      (handleAnswer wops q m s' a).watches = (handleAnswer wops q m s a).watches)
    (answer : List RR) (s s' : State W) (h : s'.watches = s.watches) :
    (handleAnswers wops q answer s' m).watches = (handleAnswers wops q answer s m).watches := by
  induction answer generalizing s s' with
  | nil => simpa [handleAnswers] using h
  | cons a rest ih =>
    simp only [handleAnswers, List.foldl_cons]
    exact ih _ _ (hstep s s' a h)

/-- The three passes, spelled out. -/
theorem handleReply_eq (wops : WatchesOps W) (q : String) (answer : List RR) (s : State W) :
    handleReply wops q answer s =
      handleAnswers wops q answer
        (handleAnswers wops q answer
          (handleAnswers wops q answer s [(TypeDNAME, handleDNAME wops)])
          [(TypeCNAME, handleCNAME wops)])
        [(TypeA, handleA), (TypeAAAA, handleAAAA)] := by
  simp [handleReply, handlerMaps]

/-- The shape of the trace of the three passes: the calls for a sublist of
the answers as DNAMEs, then the calls for a sublist of the answers as CNAMEs,
then one report-and-wait pair for each watched address record, where
"watched" refers to the watch list after the first two passes, which is also
the watch list the handler ends with. -/
theorem handleReply_trace (wops : WatchesOps W) (q : String) (answer : List RR)
    (s : State W) :
    (handleReply wops q answer s).watches = watchesAfterAliases wops q answer s.watches ∧
    ∃ ld lc : List RR, ld.Sublist answer ∧ lc.Sublist answer ∧
      (handleReply wops q answer s).trace =
        s.trace ++ ld.filterMap dnameCall ++ lc.filterMap cnameCall ++
          ((answer.filterMap fun a =>
            if watched wops (watchesAfterAliases wops q answer s.watches) q a = true
            then addrReport a else none).flatMap
              fun r => [Effect.report r, Effect.wait r]) := by
  have hw : (handleAnswers wops q answer
      (handleAnswers wops q answer s [(TypeDNAME, handleDNAME wops)])
      [(TypeCNAME, handleCNAME wops)]).watches = watchesAfterAliases wops q answer s.watches := by
    unfold watchesAfterAliases
    apply handleAnswers_watches_congr wops q _
      (fun s s' a h => (handleAnswer_cname_spec wops q s a).2 s' h)
    apply handleAnswers_watches_congr wops q _
      (fun s s' a h => (handleAnswer_dname_spec wops q s a).2 s' h)
    rfl
  obtain ⟨ld, hld, hd⟩ := handleAnswers_calls wops q [(TypeDNAME, handleDNAME wops)] dnameCall
    (fun s a => (handleAnswer_dname_spec wops q s a).1) answer s
  obtain ⟨lc, hlc, hc⟩ := handleAnswers_calls wops q [(TypeCNAME, handleCNAME wops)] cnameCall
    (fun s a => (handleAnswer_cname_spec wops q s a).1) answer
    (handleAnswers wops q answer s [(TypeDNAME, handleDNAME wops)])
  have ha := handleAnswers_addr wops q answer
    (handleAnswers wops q answer
      (handleAnswers wops q answer s [(TypeDNAME, handleDNAME wops)])
      [(TypeCNAME, handleCNAME wops)])
  rw [handleReply_eq]
  refine ⟨ha.1.trans hw, ld, lc, hld, hlc, ?_⟩
  rw [ha.2, hc, hd, hw]

/-- The handler on a request that is answered by the upstream: the exchange,
the three passes over the answer section, the write of the reply. -/
theorem handleRequest_reply (rops : RemotesOps R) (wops : WatchesOps W) (env : Env)
    (p : Proxy R W) (r : Msg) (question : Question) (reply : Msg)
    (hq : r.Question = [question]) (hr : (rops.Get p.remotes question.Name).length ≠ 0)
    (hx : env.Exchange r (pickRemote env (rops.Get p.remotes question.Name)) = some reply) :
    (handleRequest rops wops env p r).watches =
      watchesAfterAliases wops question.Name reply.Answer p.watches ∧
    ∃ ld lc : List RR, ld.Sublist reply.Answer ∧ lc.Sublist reply.Answer ∧
      (handleRequest rops wops env p r).trace =
        [Effect.exchange r (pickRemote env (rops.Get p.remotes question.Name))] ++
          ld.filterMap dnameCall ++ lc.filterMap cnameCall ++
          ((reply.Answer.filterMap fun a =>
            if watched wops (watchesAfterAliases wops question.Name reply.Answer p.watches)
              question.Name a = true
            then addrReport a else none).flatMap fun r => [Effect.report r, Effect.wait r]) ++
          [Effect.writeMsg reply] := by
  obtain ⟨hw, ld, lc, hld, hlc, htr⟩ := handleReply_trace wops question.Name reply.Answer
    { watches := p.watches
      trace := [Effect.exchange r (pickRemote env (rops.Get p.remotes question.Name))]
      log := [] }
  simp only [handleRequest, hq, hr, hx, if_false, List.nil_append]
  constructor
  · split <;> exact hw
  · refine ⟨ld, lc, hld, hlc, ?_⟩
    split <;> simp only [htr]

/-- The three shapes of the trace of the handler. -/
theorem handleRequest_shape (rops : RemotesOps R) (wops : WatchesOps W) (env : Env)
    (p : Proxy R W) (r : Msg) :
    (handleRequest rops wops env p r).trace = [] ∨
    (∃ remote, (handleRequest rops wops env p r).trace = [Effect.exchange r remote]) ∨
    (∃ (remote : String) (reply : Msg) (ld lc : List RR) (rs : List Report),
      (handleRequest rops wops env p r).trace =
        [Effect.exchange r remote] ++ ld.filterMap dnameCall ++ lc.filterMap cnameCall ++
          (rs.flatMap fun r => [Effect.report r, Effect.wait r]) ++ [Effect.writeMsg reply]) := by
  rcases hq : r.Question with _ | ⟨question, _ | ⟨q2, rest⟩⟩
  · left; simp [handleRequest, hq]
  · by_cases hr : (rops.Get p.remotes question.Name).length = 0
    · left; simp [handleRequest, hq, hr]
    · cases hx : env.Exchange r (pickRemote env (rops.Get p.remotes question.Name)) with
      | none =>
        right; left
        exact ⟨pickRemote env (rops.Get p.remotes question.Name),
          by simp [handleRequest, hq, hr, hx]⟩
      | some reply =>
        right; right
        obtain ⟨-, ld, lc, -, -, htr⟩ :=
          handleRequest_reply rops wops env p r question reply hq hr hx
        exact ⟨_, reply, ld, lc, _, htr⟩
  · left; simp [handleRequest, hq]

/-! ## Lemmas on positions in a trace -/

theorem mem_dnameCalls {l : List RR} {e : Effect} (h : e ∈ l.filterMap dnameCall) :
    ∃ t ttl, e = Effect.addTempDNAME t ttl := by
  obtain ⟨a, -, ha⟩ := List.mem_filterMap.mp h
  cases a <;> simp [dnameCall] at ha
  exact ⟨_, _, ha.symm⟩

theorem mem_cnameCalls {l : List RR} {e : Effect} (h : e ∈ l.filterMap cnameCall) :
    ∃ t ttl, e = Effect.addTempCNAME t ttl := by
  obtain ⟨a, -, ha⟩ := List.mem_filterMap.mp h
  cases a <;> simp [cnameCall] at ha
  exact ⟨_, _, ha.symm⟩

theorem mem_pairs {rs : List Report} {e : Effect}
    (h : e ∈ rs.flatMap fun r => [Effect.report r, Effect.wait r]) :
    ∃ r, e = Effect.report r ∨ e = Effect.wait r := by
  obtain ⟨r, -, hr⟩ := List.mem_flatMap.mp h
  simp at hr
  exact ⟨r, hr⟩

theorem followed_cons {e : Effect} {l : List Effect} (he : ∀ rep, e ≠ Effect.report rep)
    (hl : Followed l) : Followed (e :: l) := by
  intro i rep h
  cases i with
  | zero => simp at h; exact absurd h (he rep)
  | succ n => simpa using hl n rep (by simpa using h)

theorem followed_pair {r : Report} {l : List Effect} (hl : Followed l) :
    Followed (Effect.report r :: Effect.wait r :: l) := by
  intro i rep h
  match i with
  | 0 => simp at h; simp [h]
  | 1 => simp at h
  | n + 2 => simpa using hl n rep (by simpa using h)

theorem followed_append {pre l : List Effect} (hpre : ∀ rep, Effect.report rep ∉ pre)
    (hl : Followed l) : Followed (pre ++ l) := by
  induction pre with
  | nil => simpa using hl
  | cons e pre ih =>
    refine followed_cons (fun rep he => hpre rep (by simp [he])) (ih fun rep hm => ?_)
    exact hpre rep (List.mem_cons_of_mem _ hm)

theorem followed_pairs (rs : List Report) {l : List Effect} (hl : Followed l) :
    Followed ((rs.flatMap fun r => [Effect.report r, Effect.wait r]) ++ l) := by
  induction rs with
  | nil => simpa using hl
  | cons r rs ih => simpa using followed_pair ih

/-- An effect found in `pre ++ l` at a position is found in `pre` or in `l`. -/
theorem getElem?_append_cases {pre l : List Effect} {i : Nat} {e : Effect}
    (h : (pre ++ l)[i]? = some e) :
    (i < pre.length ∧ e ∈ pre) ∨ (pre.length ≤ i ∧ l[i - pre.length]? = some e) := by
  by_cases hi : i < pre.length
  · rw [List.getElem?_append_left hi] at h
    exact Or.inl ⟨hi, List.getElem?_mem h⟩
  · rw [List.getElem?_append_right (Nat.le_of_not_lt hi)] at h
    exact Or.inr ⟨Nat.le_of_not_lt hi, h⟩

/-- When `P` holds of no effect of `l` and `Q` of no effect of `pre`, every
`P` in `pre ++ l` comes before every `Q`. -/
theorem before_of_append {pre l : List Effect} {P Q : Effect → Prop}
    (hl : ∀ e ∈ l, ¬ P e) (hpre : ∀ e ∈ pre, ¬ Q e) {i j : Nat} {e1 e2 : Effect}
    (h1 : (pre ++ l)[i]? = some e1) (hP : P e1)
    (h2 : (pre ++ l)[j]? = some e2) (hQ : Q e2) : i < j := by
  rcases getElem?_append_cases h1 with ⟨hi, -⟩ | ⟨-, hi⟩
  · rcases getElem?_append_cases h2 with ⟨-, hj⟩ | ⟨hj, -⟩
    · exact absurd hQ (hpre _ hj)
    · omega
  · exact absurd hP (hl _ (List.getElem?_mem hi))

/-- The trace of the handler is empty, or the single exchange, or it has the
shape of a served request; in each case reports are followed by their waits
and a write can only be the last effect. -/
theorem handleRequest_followed (rops : RemotesOps R) (wops : WatchesOps W) (env : Env)
    (p : Proxy R W) (r : Msg) :
    Followed (handleRequest rops wops env p r).trace ∧
    ∀ j reply, (handleRequest rops wops env p r).trace[j]? = some (Effect.writeMsg reply) →
      j + 1 = (handleRequest rops wops env p r).trace.length := by
  rcases handleRequest_shape rops wops env p r with h | ⟨remote, h⟩ |
    ⟨remote, reply, ld, lc, rs, h⟩
  · rw [h]; exact ⟨fun i rep hi => by simp at hi, fun j m hj => by simp at hj⟩
  · rw [h]
    refine ⟨fun i rep hi => ?_, fun j m hj => ?_⟩
    · have := List.getElem?_mem hi
      simp at this
    · have := List.getElem?_mem hj
      simp at this
  · rw [h]
    constructor
    · have hpre : ∀ rep, Effect.report rep ∉
          [Effect.exchange r remote] ++ ld.filterMap dnameCall ++ lc.filterMap cnameCall := by
        intro rep hm
        rcases List.mem_append.mp hm with hm | hm
        · rcases List.mem_append.mp hm with hm | hm
          · simp at hm
          · obtain ⟨_, _, he⟩ := mem_dnameCalls hm; cases he
        · obtain ⟨_, _, he⟩ := mem_cnameCalls hm; cases he
      have hpost : Followed [Effect.writeMsg reply] :=
        followed_cons (fun rep he => by cases he) (fun i rep hi => by simp at hi)
      have := followed_append hpre (followed_pairs rs hpost)
      simpa [List.append_assoc] using this
    · intro j m hj
      rcases getElem?_append_cases hj with ⟨-, hm⟩ | ⟨hle, hm⟩
      · exfalso
        rcases List.mem_append.mp hm with hm | hm
        · rcases List.mem_append.mp hm with hm | hm
          · rcases List.mem_append.mp hm with hm | hm
            · simp at hm
            · obtain ⟨_, _, he⟩ := mem_dnameCalls hm; cases he
          · obtain ⟨_, _, he⟩ := mem_cnameCalls hm; cases he
        · obtain ⟨_, he | he⟩ := mem_pairs hm <;> cases he
      · have hlt : j - ([Effect.exchange r remote] ++ ld.filterMap dnameCall ++
            lc.filterMap cnameCall ++
            (rs.flatMap fun r => [Effect.report r, Effect.wait r])).length < 1 := by
          by_contra hc
          rw [List.getElem?_eq_none (by simpa using Nat.le_of_not_lt hc)] at hm
          cases hm
        rw [List.length_append, List.length_singleton]
        omega

end Lemmas

/-! ## Properties of the request handler -/

section Claims

variable {R W : Type}

/-- C1 (report backpressure).  In the effect trace of `handleRequest`, for
every request and every upstream reply: each emitted report is directly
followed by the wait for that very report, so the wait comes before the next
report is emitted and before the reply is written; the write of the reply, if
there is one, is the last effect of the handler, hence single and after the
wait for every emitted report. -/
theorem C1_report_backpressure (rops : RemotesOps R) (wops : WatchesOps W) (env : Env)
    (p : Proxy R W) (r : Msg) :
    (∀ i rep, (handleRequest rops wops env p r).trace[i]? = some (Effect.report rep) →
      (handleRequest rops wops env p r).trace[i + 1]? = some (Effect.wait rep)) ∧
    (∀ (i j : Nat) rep rep', i < j →
      (handleRequest rops wops env p r).trace[i]? = some (Effect.report rep) →
      (handleRequest rops wops env p r).trace[j]? = some (Effect.report rep') → i + 1 < j) ∧
    (∀ (i j : Nat) rep reply,
      (handleRequest rops wops env p r).trace[i]? = some (Effect.report rep) →
      (handleRequest rops wops env p r).trace[j]? = some (Effect.writeMsg reply) → i + 1 < j) ∧
    (∀ j reply, (handleRequest rops wops env p r).trace[j]? = some (Effect.writeMsg reply) →
      j + 1 = (handleRequest rops wops env p r).trace.length) := by
  obtain ⟨hf, hlast⟩ := handleRequest_followed rops wops env p r
  refine ⟨hf, ?_, ?_, hlast⟩
  · intro i j rep rep' hij hi hj
    have hw := hf i rep hi
    rcases Nat.lt_or_ge (i + 1) j with h | h
    · exact h
    · have : j = i + 1 := by omega
      subst this
      rw [hw] at hj
      cases hj
  · intro i j rep reply hi hj
    have hw := hf i rep hi
    have hl := hlast j reply hj
    obtain ⟨hlt, -⟩ := List.getElem?_eq_some.mp hw
    rcases Nat.lt_or_ge (i + 1) j with h | h
    · exact h
    · have : j = i + 1 := by omega
      subst this
      rw [hw] at hj
      cases hj

/-- The scenario of a watched exclude run through C1: the report of
`192.0.2.10` at position 2 of the trace is followed by its wait at position 3. -/
theorem C1_report_backpressure_witness :
    (handleRequest specRemotes specWatches exampleEnv exampleProxy exampleQuery).trace[3]? =
      some (Effect.wait ⟨"api.internal.example.com", [192, 0, 2, 10], 60⟩) :=
  (C1_report_backpressure specRemotes specWatches exampleEnv exampleProxy exampleQuery).1 2
    ⟨"api.internal.example.com", [192, 0, 2, 10], 60⟩ (by decide)

theorem filterMap_ite_eq_filter {α β : Type} (c : α → Bool) (f : α → Option β) (l : List α) :
    (l.filterMap fun a => if c a = true then f a else none) = (l.filter c).filterMap f := by
  induction l with
  | nil => rfl
  | cons a l ih =>
    cases hc : c a <;> simp [List.filterMap_cons, List.filter_cons, hc, ih]

theorem reports_served (ex : Effect) (hex : ∀ rep, ex ≠ Effect.report rep) (ld lc : List RR)
    (rs : List Report) (reply : Msg) :
    reports ([ex] ++ ld.filterMap dnameCall ++ lc.filterMap cnameCall ++
      (rs.flatMap fun r => [Effect.report r, Effect.wait r]) ++ [Effect.writeMsg reply]) = rs := by
  have h1 : reports (ld.filterMap dnameCall) = [] := by
    simp only [reports, List.filterMap_eq_nil_iff]
    intro e he
    obtain ⟨_, _, rfl⟩ := mem_dnameCalls he
    rfl
  have h2 : reports (lc.filterMap cnameCall) = [] := by
    simp only [reports, List.filterMap_eq_nil_iff]
    intro e he
    obtain ⟨_, _, rfl⟩ := mem_cnameCalls he
    rfl
  have h3 : reports (rs.flatMap fun r => [Effect.report r, Effect.wait r]) = rs := by
    induction rs with
    | nil => rfl
    | cons r rs ih =>
      simp only [reports] at ih
      simp [reports, List.filterMap_cons, ih]
  have h4 : reports [ex] = [] := by
    cases ex <;> first | rfl | exact absurd rfl (hex _)
  simp only [reports, List.filterMap_append] at h1 h2 h3 h4 ⊢
  rw [h1, h2, h3, h4]
  simp

/-- C2 (pass C).  When the upstream answered, the reports the handler emits
are, walking the answer section in order, one report `{owner, ip, ttl}` for
each address record (type A or AAAA) for which the question name or the owner
name of the record is on the watch list as it stands after the DNAME and
CNAME passes, and nothing for any other record; so a report is emitted if and
only if it is the report of such a record. -/
theorem C2_address_reports (rops : RemotesOps R) (wops : WatchesOps W) (env : Env)
    (p : Proxy R W) (r : Msg) (question : Question) (reply : Msg)
    (hq : r.Question = [question]) (hr : (rops.Get p.remotes question.Name).length ≠ 0)
    (hx : env.Exchange r (pickRemote env (rops.Get p.remotes question.Name)) = some reply) :
    reports (handleRequest rops wops env p r).trace =
      (reply.Answer.filterMap fun a =>
        if watched wops (watchesAfterAliases wops question.Name reply.Answer p.watches)
          question.Name a = true
        then addrReport a else none) ∧
    ∀ rep, Effect.report rep ∈ (handleRequest rops wops env p r).trace ↔
      ∃ a ∈ reply.Answer, addrReport a = some rep ∧
        watched wops (watchesAfterAliases wops question.Name reply.Answer p.watches)
          question.Name a = true := by
  obtain ⟨-, ld, lc, -, -, htr⟩ := handleRequest_reply rops wops env p r question reply hq hr hx
  have hrep := reports_served
    (Effect.exchange r (pickRemote env (rops.Get p.remotes question.Name)))
    (fun rep he => by cases he) ld lc
    (reply.Answer.filterMap fun a =>
        if watched wops (watchesAfterAliases wops question.Name reply.Answer p.watches)
          question.Name a = true
        then addrReport a else none) reply
  rw [← htr] at hrep
  refine ⟨hrep, fun rep => ?_⟩
  have hmem : Effect.report rep ∈ (handleRequest rops wops env p r).trace ↔
      rep ∈ reports (handleRequest rops wops env p r).trace := by
    simp only [reports, List.mem_filterMap]
    constructor
    · intro h; exact ⟨_, h, rfl⟩
    · rintro ⟨e, he, hm⟩
      cases e <;> simp at hm
      subst hm; exact he
  rw [hmem, hrep, List.mem_filterMap]
  constructor
  · rintro ⟨a, ha, h⟩
    by_cases hw : watched wops (watchesAfterAliases wops question.Name reply.Answer p.watches)
        question.Name a = true
    · rw [if_pos hw] at h; exact ⟨a, ha, h, hw⟩
    · rw [if_neg hw] at h; cases h
  · rintro ⟨a, ha, h, hw⟩
    exact ⟨a, ha, by rw [if_pos hw]; exact h⟩

/-- The scenario of a watched exclude run through C2: with the watch
`intra.example.com`, the query for `api.intra.example.com` answered by a CNAME
to `api.internal.example.com` and the address `192.0.2.10`, both with TTL 60,
yields exactly the report `{api.internal.example.com, 192.0.2.10, 60}`. -/
theorem C2_address_reports_witness :
    reports (handleRequest specRemotes specWatches exampleEnv exampleProxy exampleQuery).trace =
      [⟨"api.internal.example.com", [192, 0, 2, 10], 60⟩] :=
  (C2_address_reports specRemotes specWatches exampleEnv exampleProxy exampleQuery
    ⟨"api.intra.example.com"⟩ exampleReply rfl (by decide) rfl).1.trans (by decide)

/-- C3 (three-pass ordering).  For every request, in the effect trace of the
handler every `AddTempDNAME` call precedes every `AddTempCNAME` call, and
every `AddTempCNAME` call (and so every `AddTempDNAME` call) precedes every
emitted report.  When the upstream answered, the trace is the exchange, then
the DNAME calls of a sublist of the answer section, then the CNAME calls of a
sublist of the answer section, then the report-and-wait pairs of a sublist of
the answer section, each in answer-section order, then the write. -/
theorem C3_three_pass_order (rops : RemotesOps R) (wops : WatchesOps W) (env : Env)
    (p : Proxy R W) (r : Msg) :
    (∀ (i j : Nat) t ttl t' ttl',
      (handleRequest rops wops env p r).trace[i]? = some (Effect.addTempDNAME t ttl) →
      (handleRequest rops wops env p r).trace[j]? = some (Effect.addTempCNAME t' ttl') →
      i < j) ∧
    (∀ (i j : Nat) t ttl rep,
      (handleRequest rops wops env p r).trace[i]? = some (Effect.addTempCNAME t ttl) →
      (handleRequest rops wops env p r).trace[j]? = some (Effect.report rep) → i < j) ∧
    (∀ (i j : Nat) t ttl rep,
      (handleRequest rops wops env p r).trace[i]? = some (Effect.addTempDNAME t ttl) →
      (handleRequest rops wops env p r).trace[j]? = some (Effect.report rep) → i < j) ∧
    (∀ question reply, r.Question = [question] →
      (rops.Get p.remotes question.Name).length ≠ 0 →
      env.Exchange r (pickRemote env (rops.Get p.remotes question.Name)) = some reply →
      ∃ ld lc la : List RR,
        ld.Sublist reply.Answer ∧ lc.Sublist reply.Answer ∧ la.Sublist reply.Answer ∧
        (handleRequest rops wops env p r).trace =
          [Effect.exchange r (pickRemote env (rops.Get p.remotes question.Name))] ++
            ld.filterMap dnameCall ++ lc.filterMap cnameCall ++
            ((la.filterMap addrReport).flatMap fun r => [Effect.report r, Effect.wait r]) ++
            [Effect.writeMsg reply]) := by
  have horder :
      (∀ (i j : Nat) t ttl t' ttl',
        (handleRequest rops wops env p r).trace[i]? = some (Effect.addTempDNAME t ttl) →
        (handleRequest rops wops env p r).trace[j]? = some (Effect.addTempCNAME t' ttl') →
        i < j) ∧
      (∀ (i j : Nat) t ttl rep,
        (handleRequest rops wops env p r).trace[i]? = some (Effect.addTempCNAME t ttl) →
        (handleRequest rops wops env p r).trace[j]? = some (Effect.report rep) → i < j) ∧
      (∀ (i j : Nat) t ttl rep,
        (handleRequest rops wops env p r).trace[i]? = some (Effect.addTempDNAME t ttl) →
        (handleRequest rops wops env p r).trace[j]? = some (Effect.report rep) → i < j) := by
    rcases handleRequest_shape rops wops env p r with h | ⟨remote, h⟩ |
      ⟨remote, reply, ld, lc, rs, h⟩
    · rw [h]
      refine ⟨?_, ?_, ?_⟩
      · intro i j _ _ _ _ hi; simp at hi
      · intro i j _ _ _ hi; simp at hi
      · intro i j _ _ _ hi; simp at hi
    · rw [h]
      refine ⟨?_, ?_, ?_⟩
      · intro i j _ _ _ _ hi
        have := List.getElem?_mem hi
        simp at this
      · intro i j _ _ _ hi
        have := List.getElem?_mem hi
        simp at this
      · intro i j _ _ _ hi
        have := List.getElem?_mem hi
        simp at this
    · rw [h]
      have hex : ∀ e ∈ [Effect.exchange r remote], ∀ t ttl,
          e ≠ Effect.addTempCNAME t ttl ∧ ∀ rep, e ≠ Effect.report rep := by
        intro e he t ttl
        simp at he; subst he
        exact ⟨(fun h => by cases h), (fun rep h => by cases h)⟩
      have e1 : [Effect.exchange r remote] ++ ld.filterMap dnameCall ++ lc.filterMap cnameCall ++
            (rs.flatMap fun r => [Effect.report r, Effect.wait r]) ++ [Effect.writeMsg reply] =
          ([Effect.exchange r remote] ++ ld.filterMap dnameCall) ++ (lc.filterMap cnameCall ++
            ((rs.flatMap fun r => [Effect.report r, Effect.wait r]) ++ [Effect.writeMsg reply])) := by
        simp only [List.append_assoc]
      refine ⟨?_, ?_, ?_⟩
      · -- DNAME calls live in the first two segments, CNAME calls after them
        intro i j t ttl t' ttl' hi hj
        rw [e1] at hi hj
        refine before_of_append (P := fun e => ∃ t ttl, e = Effect.addTempDNAME t ttl)
          (Q := fun e => ∃ t ttl, e = Effect.addTempCNAME t ttl) ?_ ?_ hi ⟨_, _, rfl⟩ hj ⟨_, _, rfl⟩
        · rintro e he ⟨t, ttl, rfl⟩
          rcases List.mem_append.mp he with hm | hm
          · obtain ⟨_, _, h⟩ := mem_cnameCalls hm; cases h
          · rcases List.mem_append.mp hm with hm | hm
            · obtain ⟨_, h | h⟩ := mem_pairs hm <;> cases h
            · simp at hm
        · rintro e he ⟨t, ttl, rfl⟩
          rcases List.mem_append.mp he with hm | hm
          · exact (hex _ hm t ttl).1 rfl
          · obtain ⟨_, _, h⟩ := mem_dnameCalls hm; cases h
      · intro i j t ttl rep hi hj
        rw [List.append_assoc] at hi hj
        refine before_of_append (P := fun e => ∃ t ttl, e = Effect.addTempCNAME t ttl)
          (Q := fun e => ∃ rep, e = Effect.report rep) ?_ ?_ hi ⟨_, _, rfl⟩ hj ⟨_, rfl⟩
        · rintro e he ⟨t, ttl, rfl⟩
          rcases List.mem_append.mp he with hm | hm
          · obtain ⟨_, h | h⟩ := mem_pairs hm <;> cases h
          · simp at hm
        · rintro e he ⟨rep, rfl⟩
          rcases List.mem_append.mp he with hm | hm
          · rcases List.mem_append.mp hm with hm | hm
            · exact (hex _ hm "" 0).2 rep rfl
            · obtain ⟨_, _, h⟩ := mem_dnameCalls hm; cases h
          · obtain ⟨_, _, h⟩ := mem_cnameCalls hm; cases h
      · intro i j t ttl rep hi hj
        rw [List.append_assoc] at hi hj
        refine before_of_append (P := fun e => ∃ t ttl, e = Effect.addTempDNAME t ttl)
          (Q := fun e => ∃ rep, e = Effect.report rep) ?_ ?_ hi ⟨_, _, rfl⟩ hj ⟨_, rfl⟩
        · rintro e he ⟨t, ttl, rfl⟩
          rcases List.mem_append.mp he with hm | hm
          · obtain ⟨_, h | h⟩ := mem_pairs hm <;> cases h
          · simp at hm
        · rintro e he ⟨rep, rfl⟩
          rcases List.mem_append.mp he with hm | hm
          · rcases List.mem_append.mp hm with hm | hm
            · exact (hex _ hm "" 0).2 rep rfl
            · obtain ⟨_, _, h⟩ := mem_dnameCalls hm; cases h
          · obtain ⟨_, _, h⟩ := mem_cnameCalls hm; cases h
  refine ⟨horder.1, horder.2.1, horder.2.2, ?_⟩
  intro question reply hq hr hx
  obtain ⟨-, ld, lc, hld, hlc, htr⟩ := handleRequest_reply rops wops env p r question reply hq hr hx
  refine ⟨ld, lc, reply.Answer.filter
    (watched wops (watchesAfterAliases wops question.Name reply.Answer p.watches) question.Name),
    hld, hlc, List.filter_sublist _, ?_⟩
  rw [htr, filterMap_ite_eq_filter]

/-- The scenario of a watched exclude run through C3: the `AddTempCNAME`
call is at position 1 of the trace, the report at position 2, and the former
precedes the latter. -/
theorem C3_three_pass_order_witness :
    (handleRequest specRemotes specWatches exampleEnv exampleProxy exampleQuery).trace[1]? =
      some (Effect.addTempCNAME "api.internal.example.com" 60) ∧
    (handleRequest specRemotes specWatches exampleEnv exampleProxy exampleQuery).trace[2]? =
      some (Effect.report ⟨"api.internal.example.com", [192, 0, 2, 10], 60⟩) ∧
    1 < 2 :=
  ⟨by decide, by decide,
    (C3_three_pass_order specRemotes specWatches exampleEnv exampleProxy exampleQuery).2.1 1 2
      "api.internal.example.com" 60 ⟨"api.internal.example.com", [192, 0, 2, 10], 60⟩
      (by decide) (by decide)⟩

/-- Each pass only extends the trace it starts with. -/
theorem handleAnswers_trace_extends (wops : WatchesOps W) (q : String) (answer : List RR)
    (s : State W) (m : HandlerMap W) (hm : m ∈ handlerMaps wops) :
    ∃ suffix, (handleAnswers wops q answer s m).trace = s.trace ++ suffix := by
  simp only [handlerMaps, List.mem_cons, List.mem_singleton, List.not_mem_nil, or_false] at hm
  rcases hm with rfl | rfl | rfl
  · obtain ⟨l, -, h⟩ := handleAnswers_calls wops q [(TypeDNAME, handleDNAME wops)] dnameCall
      (fun s a => (handleAnswer_dname_spec wops q s a).1) answer s
    exact ⟨_, h⟩
  · obtain ⟨l, -, h⟩ := handleAnswers_calls wops q [(TypeCNAME, handleCNAME wops)] cnameCall
      (fun s a => (handleAnswer_cname_spec wops q s a).1) answer s
    exact ⟨_, h⟩
  · exact ⟨_, (handleAnswers_addr wops q answer s).2⟩

/-- An effect already in the trace is still in the trace after a pass. -/
theorem mem_handleAnswers (wops : WatchesOps W) (q : String) (answer : List RR)
    (s : State W) (m : HandlerMap W) (hm : m ∈ handlerMaps wops) {e : Effect}
    (he : e ∈ s.trace) : e ∈ (handleAnswers wops q answer s m).trace := by
  obtain ⟨suffix, h⟩ := handleAnswers_trace_extends wops q answer s m hm
  rw [h]
  exact List.mem_append_left _ he

/-- A pass over `pre ++ a :: post` is the pass over `pre`, the step for `a`,
and the pass over `post`. -/
theorem handleAnswers_split (wops : WatchesOps W) (q : String) (pre post : List RR) (a : RR)
    (s : State W) (m : HandlerMap W) :
    handleAnswers wops q (pre ++ a :: post) s m =
      handleAnswers wops q post (handleAnswer wops q m (handleAnswers wops q pre s m) a) m := by
  simp [handleAnswers, List.foldl_append]

/-- The trace of a served request in terms of the three passes. -/
theorem handleRequest_reply_passes (rops : RemotesOps R) (wops : WatchesOps W) (env : Env)
    (p : Proxy R W) (r : Msg) (question : Question) (reply : Msg)
    (hq : r.Question = [question]) (hr : (rops.Get p.remotes question.Name).length ≠ 0)
    (hx : env.Exchange r (pickRemote env (rops.Get p.remotes question.Name)) = some reply) :
    (handleRequest rops wops env p r).trace =
      (handleReply wops question.Name reply.Answer
        { watches := p.watches
          trace := [Effect.exchange r (pickRemote env (rops.Get p.remotes question.Name))]
          log := [] }).trace ++ [Effect.writeMsg reply] := by
  simp only [handleRequest, hq, hr, hx, if_false, List.nil_append]
  split <;> rfl

theorem zip_map_cons_filterMap {β : Type} (a : RR) (g : List RR × RR → Option β)
    (l1 : List (List RR)) (l2 : List RR) :
    ((l1.map fun t => a :: t).zip l2).filterMap g =
      (l1.zip l2).filterMap fun pa => g (a :: pa.1, pa.2) := by
  induction l1 generalizing l2 with
  | nil => rfl
  | cons x l1 ih =>
    cases l2 with
    | nil => rfl
    | cons y l2 =>
      simp only [List.map_cons, List.zip_cons_cons, List.filterMap_cons, ih]

/-- A record paired with the records before it splits the answer section. -/
theorem split_of_mem_inits_zip (l : List RR) (pre : List RR) (a : RR)
    (h : (pre, a) ∈ l.inits.zip l) : ∃ post, l = pre ++ a :: post := by
  induction l generalizing pre with
  | nil => simp at h
  | cons x l ih =>
    rw [List.inits_cons, List.zip_cons_cons, List.mem_cons] at h
    rcases h with h | h
    · cases h
      exact ⟨l, rfl⟩
    · rw [List.zip_map_left, List.mem_map] at h
      obtain ⟨⟨pre1, a1⟩, hmem, heq⟩ := h
      simp only [Prod.map_apply, id_eq, Prod.mk.injEq] at heq
      obtain ⟨rfl, rfl⟩ := heq
      obtain ⟨post, hpost⟩ := ih pre1 hmem
      exact ⟨post, by rw [hpost]; rfl⟩

/-- A pass whose step appends the call of the visited record exactly when the
record is watched and of the type of the pass appends exactly the calls of
the records watched when visited. -/
theorem handleAnswers_trace_exact (wops : WatchesOps W) (q : String) (m : HandlerMap W)
    (typ : Nat) (call : RR → Option Effect)
    (hstep : ∀ (s : State W) (a : RR), (handleAnswer wops q m s a).trace =
      s.trace ++ (if watched wops s.watches q a = true ∧ a.Header.Rrtype = typ
        then call a else none).toList)
    (hcongr : ∀ (s s' : State W) (a : RR), s'.watches = s.watches →
      (handleAnswer wops q m s' a).watches = (handleAnswer wops q m s a).watches)
    (answer : List RR) (s : State W) :
    (handleAnswers wops q answer s m).trace =
      s.trace ++ watchedCalls wops q m typ call answer s.watches := by
  induction answer generalizing s with
  | nil => simp [handleAnswers, watchedCalls]
  | cons a rest ih =>
    have hrest := ih (handleAnswer wops q m s a)
    have hhead : handleAnswers wops q (a :: rest) s m =
        handleAnswers wops q rest (handleAnswer wops q m s a) m := by
      simp only [handleAnswers, List.foldl_cons]
    have htail : ∀ pa : List RR × RR,
        (handleAnswers wops q (a :: pa.1) { watches := s.watches, trace := [], log := [] }
          m).watches =
        (handleAnswers wops q pa.1
          { watches := (handleAnswer wops q m s a).watches, trace := [], log := [] }
          m).watches := by
      intro pa
      have h1 : handleAnswers wops q (a :: pa.1)
          { watches := s.watches, trace := [], log := [] } m =
          handleAnswers wops q pa.1
            (handleAnswer wops q m { watches := s.watches, trace := [], log := [] } a) m := by
        simp only [handleAnswers, List.foldl_cons]
      rw [h1]
      exact handleAnswers_watches_congr wops q m hcongr pa.1 _ _
        (hcongr { watches := s.watches, trace := [], log := [] } s a rfl).symm
    have hcalls : watchedCalls wops q m typ call (a :: rest) s.watches =
        (if watched wops s.watches q a = true ∧ a.Header.Rrtype = typ
          then call a else none).toList ++
        watchedCalls wops q m typ call rest (handleAnswer wops q m s a).watches := by
      unfold watchedCalls
      rw [List.inits_cons, List.zip_cons_cons, List.filterMap_cons, zip_map_cons_filterMap]
      simp only [htail]
      have h0 : (handleAnswers wops q [] { watches := s.watches, trace := [], log := [] }
          m).watches = s.watches := rfl
      simp only [h0]
      by_cases hc : watched wops s.watches q a = true ∧ a.Header.Rrtype = typ
      · simp only [if_pos hc]
        cases call a <;> rfl
      · simp only [if_neg hc]
        rfl
    rw [hhead, hrest, hstep, hcalls, List.append_assoc]

theorem handleAnswer_dname_trace (wops : WatchesOps W) (q : String) (s : State W) (a : RR) :
    (handleAnswer wops q [(TypeDNAME, handleDNAME wops)] s a).trace =
      s.trace ++ (if watched wops s.watches q a = true ∧ a.Header.Rrtype = TypeDNAME
        then dnameCall a else none).toList := by
  rw [handleAnswer_dname]
  by_cases hc : watched wops s.watches q a = true ∧ a.Header.Rrtype = TypeDNAME
  · rw [if_pos hc, if_pos hc]
    cases a <;> simp [handleDNAME, dnameCall]
  · rw [if_neg hc, if_neg hc]
    simp

theorem handleAnswer_cname_trace (wops : WatchesOps W) (q : String) (s : State W) (a : RR) :
    (handleAnswer wops q [(TypeCNAME, handleCNAME wops)] s a).trace =
      s.trace ++ (if watched wops s.watches q a = true ∧ a.Header.Rrtype = TypeCNAME
        then cnameCall a else none).toList := by
  rw [handleAnswer_cname]
  by_cases hc : watched wops s.watches q a = true ∧ a.Header.Rrtype = TypeCNAME
  · rw [if_pos hc, if_pos hc]
    cases a <;> simp [handleCNAME, cnameCall]
  · rw [if_neg hc, if_neg hc]
    simp

theorem mem_watchedCalls (wops : WatchesOps W) (q : String) (m : HandlerMap W) (typ : Nat)
    (call : RR → Option Effect) (answer : List RR) (w : W) (e : Effect)
    (h : e ∈ watchedCalls wops q m typ call answer w) :
    ∃ pre post a, answer = pre ++ a :: post ∧
      watched wops
        (handleAnswers wops q pre { watches := w, trace := [], log := [] } m).watches
        q a = true ∧
      a.Header.Rrtype = typ ∧ call a = some e := by
  unfold watchedCalls at h
  obtain ⟨⟨pre, a⟩, hmem, hcall⟩ := List.mem_filterMap.mp h
  obtain ⟨post, hpost⟩ := split_of_mem_inits_zip answer pre a hmem
  by_cases hc : watched wops
      (handleAnswers wops q pre { watches := w, trace := [], log := [] } m).watches
      q a = true ∧ a.Header.Rrtype = typ
  · simp only [if_pos hc] at hcall
    exact ⟨pre, post, a, hpost, hc.1, hc.2, hcall⟩
  · simp only [if_neg hc] at hcall
    cases hcall

theorem dnameCallsOf_watchedCalls (wops : WatchesOps W) (q : String) (m : HandlerMap W)
    (typ : Nat) (answer : List RR) (w : W) :
    dnameCallsOf (watchedCalls wops q m typ dnameCall answer w) =
      watchedCalls wops q m typ dnameCall answer w ∧
    cnameCallsOf (watchedCalls wops q m typ dnameCall answer w) = [] := by
  constructor
  · apply List.filter_eq_self.mpr
    intro e he
    obtain ⟨_, _, a, -, -, -, hcall⟩ := mem_watchedCalls wops q m typ dnameCall answer w e he
    cases a <;> simp [dnameCall] at hcall
    subst hcall; rfl
  · apply List.filter_eq_nil_iff.mpr
    intro e he
    obtain ⟨_, _, a, -, -, -, hcall⟩ := mem_watchedCalls wops q m typ dnameCall answer w e he
    cases a <;> simp [dnameCall] at hcall
    subst hcall; simp

theorem cnameCallsOf_watchedCalls (wops : WatchesOps W) (q : String) (m : HandlerMap W)
    (typ : Nat) (answer : List RR) (w : W) :
    cnameCallsOf (watchedCalls wops q m typ cnameCall answer w) =
      watchedCalls wops q m typ cnameCall answer w ∧
    dnameCallsOf (watchedCalls wops q m typ cnameCall answer w) = [] := by
  constructor
  · apply List.filter_eq_self.mpr
    intro e he
    obtain ⟨_, _, a, -, -, -, hcall⟩ := mem_watchedCalls wops q m typ cnameCall answer w e he
    cases a <;> simp [cnameCall] at hcall
    subst hcall; rfl
  · apply List.filter_eq_nil_iff.mpr
    intro e he
    obtain ⟨_, _, a, -, -, -, hcall⟩ := mem_watchedCalls wops q m typ cnameCall answer w e he
    cases a <;> simp [cnameCall] at hcall
    subst hcall; simp

theorem aliasCallsOf_pairs (rs : List Report) :
    dnameCallsOf (rs.flatMap fun r => [Effect.report r, Effect.wait r]) = [] ∧
    cnameCallsOf (rs.flatMap fun r => [Effect.report r, Effect.wait r]) = [] := by
  constructor <;>
  · apply List.filter_eq_nil_iff.mpr
    intro e he
    obtain ⟨_, h | h⟩ := mem_pairs he <;> subst h <;> simp

/-- The trace of a served request, with the calls of the alias passes given
exactly: the exchange, the DNAME calls of the records watched when visited,
the CNAME calls of the records watched when visited, the report-and-wait
pairs, the write. -/
theorem handleRequest_reply_exact (rops : RemotesOps R) (wops : WatchesOps W) (env : Env)
    (p : Proxy R W) (r : Msg) (question : Question) (reply : Msg)
    (hq : r.Question = [question]) (hr : (rops.Get p.remotes question.Name).length ≠ 0)
    (hx : env.Exchange r (pickRemote env (rops.Get p.remotes question.Name)) = some reply) :
    ∃ rs : List Report,
      (handleRequest rops wops env p r).trace =
        [Effect.exchange r (pickRemote env (rops.Get p.remotes question.Name))] ++
          watchedCalls wops question.Name [(TypeDNAME, handleDNAME wops)] TypeDNAME dnameCall
            reply.Answer p.watches ++
          watchedCalls wops question.Name [(TypeCNAME, handleCNAME wops)] TypeCNAME cnameCall
            reply.Answer
            (handleAnswers wops question.Name reply.Answer
              { watches := p.watches, trace := [], log := [] }
              [(TypeDNAME, handleDNAME wops)]).watches ++
          (rs.flatMap fun r => [Effect.report r, Effect.wait r]) ++
          [Effect.writeMsg reply] := by
  have htr := handleRequest_reply_passes rops wops env p r question reply hq hr hx
  rw [handleReply_eq] at htr
  have hA := handleAnswers_trace_exact wops question.Name [(TypeDNAME, handleDNAME wops)]
    TypeDNAME dnameCall (handleAnswer_dname_trace wops question.Name)
    (fun s s' a h => (handleAnswer_dname_spec wops question.Name s a).2 s' h) reply.Answer
    { watches := p.watches
      trace := [Effect.exchange r (pickRemote env (rops.Get p.remotes question.Name))]
      log := [] }
  have hB := handleAnswers_trace_exact wops question.Name [(TypeCNAME, handleCNAME wops)]
    TypeCNAME cnameCall (handleAnswer_cname_trace wops question.Name)
    (fun s s' a h => (handleAnswer_cname_spec wops question.Name s a).2 s' h) reply.Answer
    (handleAnswers wops question.Name reply.Answer
      { watches := p.watches
        trace := [Effect.exchange r (pickRemote env (rops.Get p.remotes question.Name))]
        log := [] } [(TypeDNAME, handleDNAME wops)])
  have hwA := handleAnswers_watches_congr wops question.Name _
    (fun s s' a h => (handleAnswer_dname_spec wops question.Name s a).2 s' h) reply.Answer
    { watches := p.watches, trace := [], log := [] }
    { watches := p.watches
      trace := [Effect.exchange r (pickRemote env (rops.Get p.remotes question.Name))]
      log := [] } rfl
  have hC := (handleAnswers_addr wops question.Name reply.Answer
    (handleAnswers wops question.Name reply.Answer
      (handleAnswers wops question.Name reply.Answer
        { watches := p.watches
          trace := [Effect.exchange r (pickRemote env (rops.Get p.remotes question.Name))]
          log := [] } [(TypeDNAME, handleDNAME wops)])
      [(TypeCNAME, handleCNAME wops)])).2
  rw [htr, hC, hB, hA, hwA]
  exact ⟨_, rfl⟩

/-- C4, amended (passes A and B).  When the upstream answered: for every
record of type DNAME of the answer section such that the question name or the
owner name of the record is on the watch list when the DNAME pass visits the
record, the handler calls `AddTempDNAME(target, ttl)` with the target and TTL
of that record; likewise, for every record of type CNAME such that the
question name or its owner name is on the watch list when the CNAME pass
visits it (the DNAME pass being over), the handler calls
`AddTempCNAME(target, ttl)`.  These are all the calls: the `AddTempDNAME`
calls of the handler are, in answer order, exactly the calls of the DNAME
records watched when visited, and the `AddTempCNAME` calls exactly those of
the CNAME records watched when visited; so every such call stems from a
record that was watched when visited, and a DNAME or CNAME for which neither
name is watched at that point is not added. -/
theorem C4_watched_aliases_added (rops : RemotesOps R) (wops : WatchesOps W) (env : Env)
    (p : Proxy R W) (r : Msg) (question : Question) (reply : Msg)
    (hq : r.Question = [question]) (hr : (rops.Get p.remotes question.Name).length ≠ 0)
    (hx : env.Exchange r (pickRemote env (rops.Get p.remotes question.Name)) = some reply) :
    (∀ pre post hdr target, reply.Answer = pre ++ RR.DNAME hdr target :: post →
      hdr.Rrtype = TypeDNAME →
      watched wops
        (handleAnswers wops question.Name pre { watches := p.watches, trace := [], log := [] }
          [(TypeDNAME, handleDNAME wops)]).watches
        question.Name (RR.DNAME hdr target) = true →
      Effect.addTempDNAME target hdr.Ttl ∈ (handleRequest rops wops env p r).trace) ∧
    (∀ pre post hdr target, reply.Answer = pre ++ RR.CNAME hdr target :: post →
      hdr.Rrtype = TypeCNAME →
      watched wops
        (handleAnswers wops question.Name pre
          (handleAnswers wops question.Name reply.Answer
            { watches := p.watches, trace := [], log := [] } [(TypeDNAME, handleDNAME wops)])
          [(TypeCNAME, handleCNAME wops)]).watches
        question.Name (RR.CNAME hdr target) = true →
      Effect.addTempCNAME target hdr.Ttl ∈ (handleRequest rops wops env p r).trace) ∧
    dnameCallsOf (handleRequest rops wops env p r).trace =
      watchedCalls wops question.Name [(TypeDNAME, handleDNAME wops)] TypeDNAME dnameCall
        reply.Answer p.watches ∧
    cnameCallsOf (handleRequest rops wops env p r).trace =
      watchedCalls wops question.Name [(TypeCNAME, handleCNAME wops)] TypeCNAME cnameCall
        reply.Answer
        (handleAnswers wops question.Name reply.Answer
          { watches := p.watches, trace := [], log := [] }
          [(TypeDNAME, handleDNAME wops)]).watches ∧
    (∀ target ttl, Effect.addTempDNAME target ttl ∈ (handleRequest rops wops env p r).trace →
      ∃ pre post hdr, reply.Answer = pre ++ RR.DNAME hdr target :: post ∧
        hdr.Ttl = ttl ∧ hdr.Rrtype = TypeDNAME ∧
        watched wops
          (handleAnswers wops question.Name pre
            { watches := p.watches, trace := [], log := [] }
            [(TypeDNAME, handleDNAME wops)]).watches
          question.Name (RR.DNAME hdr target) = true) ∧
    (∀ target ttl, Effect.addTempCNAME target ttl ∈ (handleRequest rops wops env p r).trace →
      ∃ pre post hdr, reply.Answer = pre ++ RR.CNAME hdr target :: post ∧
        hdr.Ttl = ttl ∧ hdr.Rrtype = TypeCNAME ∧
        watched wops
          (handleAnswers wops question.Name pre
            { watches :=
                (handleAnswers wops question.Name reply.Answer
                  { watches := p.watches, trace := [], log := [] }
                  [(TypeDNAME, handleDNAME wops)]).watches
              trace := [], log := [] }
            [(TypeCNAME, handleCNAME wops)]).watches
          question.Name (RR.CNAME hdr target) = true) := by
  have htr := handleRequest_reply_passes rops wops env p r question reply hq hr hx
  rw [handleReply_eq] at htr
  have hD : [(TypeDNAME, handleDNAME wops)] ∈ handlerMaps wops := by simp [handlerMaps]
  have hC : [(TypeCNAME, handleCNAME wops)] ∈ handlerMaps wops := by simp [handlerMaps]
  have hA : [(TypeA, handleA), (TypeAAAA, handleAAAA)] ∈ handlerMaps wops := by
    simp [handlerMaps]
  obtain ⟨rs, hexact⟩ := handleRequest_reply_exact rops wops env p r question reply hq hr hx
  have hdn : dnameCallsOf (handleRequest rops wops env p r).trace =
      watchedCalls wops question.Name [(TypeDNAME, handleDNAME wops)] TypeDNAME dnameCall
        reply.Answer p.watches := by
    rw [hexact]
    simp only [dnameCallsOf, List.filter_append]
    have h1 := (dnameCallsOf_watchedCalls wops question.Name [(TypeDNAME, handleDNAME wops)]
      TypeDNAME reply.Answer p.watches).1
    have h2 := (cnameCallsOf_watchedCalls wops question.Name [(TypeCNAME, handleCNAME wops)]
      TypeCNAME reply.Answer
      (handleAnswers wops question.Name reply.Answer
        { watches := p.watches, trace := [], log := [] }
        [(TypeDNAME, handleDNAME wops)]).watches).2
    have h3 := (aliasCallsOf_pairs rs).1
    simp only [dnameCallsOf] at h1 h2 h3
    rw [h1, h2, h3]
    simp
  have hcn : cnameCallsOf (handleRequest rops wops env p r).trace =
      watchedCalls wops question.Name [(TypeCNAME, handleCNAME wops)] TypeCNAME cnameCall
        reply.Answer
        (handleAnswers wops question.Name reply.Answer
          { watches := p.watches, trace := [], log := [] }
          [(TypeDNAME, handleDNAME wops)]).watches := by
    rw [hexact]
    simp only [cnameCallsOf, List.filter_append]
    have h1 := (dnameCallsOf_watchedCalls wops question.Name [(TypeDNAME, handleDNAME wops)]
      TypeDNAME reply.Answer p.watches).2
    have h2 := (cnameCallsOf_watchedCalls wops question.Name [(TypeCNAME, handleCNAME wops)]
      TypeCNAME reply.Answer
      (handleAnswers wops question.Name reply.Answer
        { watches := p.watches, trace := [], log := [] }
        [(TypeDNAME, handleDNAME wops)]).watches).1
    have h3 := (aliasCallsOf_pairs rs).2
    simp only [cnameCallsOf] at h1 h2 h3
    rw [h1, h2, h3]
    simp
  refine ⟨?_, ?_, hdn, hcn, ?_, ?_⟩
  · intro pre post hdr target hans hty hw
    have hcongr := handleAnswers_watches_congr wops question.Name _
      (fun s s' a h => (handleAnswer_dname_spec wops question.Name s a).2 s' h) pre
      { watches := p.watches, trace := [], log := [] }
      { watches := p.watches
        trace := [Effect.exchange r (pickRemote env (rops.Get p.remotes question.Name))]
        log := [] } rfl
    rw [← hcongr] at hw
    rw [htr]
    apply List.mem_append_left
    apply mem_handleAnswers wops question.Name _ _ _ hA
    apply mem_handleAnswers wops question.Name _ _ _ hC
    rw [hans, handleAnswers_split]
    apply mem_handleAnswers wops question.Name _ _ _ hD
    rw [handleAnswer_dname, if_pos ⟨hw, hty⟩]
    simp [handleDNAME]
  · intro pre post hdr target hans hty hw
    have hcongrD := handleAnswers_watches_congr wops question.Name _
      (fun s s' a h => (handleAnswer_dname_spec wops question.Name s a).2 s' h) reply.Answer
      { watches := p.watches, trace := [], log := [] }
      { watches := p.watches
        trace := [Effect.exchange r (pickRemote env (rops.Get p.remotes question.Name))]
        log := [] } rfl
    have hcongr := handleAnswers_watches_congr wops question.Name _
      (fun s s' a h => (handleAnswer_cname_spec wops question.Name s a).2 s' h) pre _ _ hcongrD
    rw [← hcongr] at hw
    rw [htr]
    apply List.mem_append_left
    apply mem_handleAnswers wops question.Name _ _ _ hA
    have hsplit := handleAnswers_split wops question.Name pre post (RR.CNAME hdr target)
      (handleAnswers wops question.Name reply.Answer
        { watches := p.watches
          trace := [Effect.exchange r (pickRemote env (rops.Get p.remotes question.Name))]
          log := [] } [(TypeDNAME, handleDNAME wops)]) [(TypeCNAME, handleCNAME wops)]
    rw [← hans] at hsplit
    rw [hsplit]
    apply mem_handleAnswers wops question.Name _ _ _ hC
    rw [handleAnswer_cname, if_pos ⟨hw, hty⟩]
    simp [handleCNAME]

  · intro target ttl hmem
    have hin : Effect.addTempDNAME target ttl ∈
        dnameCallsOf (handleRequest rops wops env p r).trace := by
      simp only [dnameCallsOf, List.mem_filter]
      exact ⟨hmem, trivial⟩
    rw [hdn] at hin
    obtain ⟨pre, post, a, hans, hw, hty, hcall⟩ := mem_watchedCalls _ _ _ _ _ _ _ _ hin
    cases a <;> simp [dnameCall] at hcall
    obtain ⟨rfl, rfl⟩ := hcall
    exact ⟨pre, post, _, hans, rfl, hty, hw⟩
  · intro target ttl hmem
    have hin : Effect.addTempCNAME target ttl ∈
        cnameCallsOf (handleRequest rops wops env p r).trace := by
      simp only [cnameCallsOf, List.mem_filter]
      exact ⟨hmem, trivial⟩
    rw [hcn] at hin
    obtain ⟨pre, post, a, hans, hw, hty, hcall⟩ := mem_watchedCalls _ _ _ _ _ _ _ _ hin
    cases a <;> simp [cnameCall] at hcall
    obtain ⟨rfl, rfl⟩ := hcall
    exact ⟨pre, post, _, hans, rfl, hty, hw⟩

/-- The scenario of a watched exclude run through the amended C4: the CNAME
for the watched question name is added as a temporary watch. -/
theorem C4_watched_aliases_added_witness :
    Effect.addTempCNAME "api.internal.example.com" 60 ∈
      (handleRequest specRemotes specWatches exampleEnv exampleProxy exampleQuery).trace :=
  (C4_watched_aliases_added specRemotes specWatches exampleEnv exampleProxy exampleQuery
    ⟨"api.intra.example.com"⟩ exampleReply rfl (by decide) rfl).2.1 []
    [RR.A ⟨"api.internal.example.com", TypeA, 60⟩ [192, 0, 2, 10]]
    ⟨"api.intra.example.com", TypeCNAME, 60⟩ "api.internal.example.com" rfl rfl (by decide)

/-- C4 as stated fails: the upstream answers the query for `www.example.org`
with a reply that holds a DNAME record and a CNAME record, neither the question
name nor the owner names are watched, and the handler calls neither
`AddTempDNAME` nor `AddTempCNAME`: it only forwards the reply. -/
theorem C4_unwatched_aliases_not_added :
    unwatchedEnv.Exchange unwatchedQuery "10.0.0.1:53" = some unwatchedReply ∧
    RR.DNAME ⟨"example.org", TypeDNAME, 300⟩ "example.net" ∈ unwatchedReply.Answer ∧
    RR.CNAME ⟨"www.example.org", TypeCNAME, 300⟩ "www.example.net" ∈ unwatchedReply.Answer ∧
    (handleRequest specRemotes specWatches unwatchedEnv exampleProxy unwatchedQuery).trace =
      [Effect.exchange unwatchedQuery "10.0.0.1:53", Effect.writeMsg unwatchedReply] ∧
    Effect.addTempDNAME "example.net" 300 ∉
      (handleRequest specRemotes specWatches unwatchedEnv exampleProxy unwatchedQuery).trace ∧
    Effect.addTempCNAME "www.example.net" 300 ∉
      (handleRequest specRemotes specWatches unwatchedEnv exampleProxy unwatchedQuery).trace := by
  decide

/-- C5 (drop semantics).  If the question count of the request is not 1, or
the remotes lookup for the question name yields no upstream, the handler
performs no effect at all: no exchange with an upstream, no report, no
temporary watch, no write to the client.  If the exchange with the chosen
upstream fails, the exchange is the only effect of the handler.  In all three
cases the watch list is left as it was.  Conversely, when a reply is written
to the client, the question count is 1, there is at least one upstream and
the exchange with the chosen upstream returned that very reply. -/
theorem C5_drop_semantics (rops : RemotesOps R) (wops : WatchesOps W) (env : Env)
    (p : Proxy R W) (r : Msg) :
    (r.Question.length ≠ 1 →
      (handleRequest rops wops env p r).trace = [] ∧
      (handleRequest rops wops env p r).watches = p.watches) ∧
    (∀ question, r.Question = [question] →
      (rops.Get p.remotes question.Name).length = 0 →
      (handleRequest rops wops env p r).trace = [] ∧
      (handleRequest rops wops env p r).watches = p.watches) ∧
    (∀ question, r.Question = [question] →
      (rops.Get p.remotes question.Name).length ≠ 0 →
      env.Exchange r (pickRemote env (rops.Get p.remotes question.Name)) = none →
      (handleRequest rops wops env p r).trace =
        [Effect.exchange r (pickRemote env (rops.Get p.remotes question.Name))] ∧
      (handleRequest rops wops env p r).watches = p.watches) ∧
    (∀ reply, Effect.writeMsg reply ∈ (handleRequest rops wops env p r).trace →
      r.Question.length = 1 ∧
      ∃ question, r.Question = [question] ∧
        (rops.Get p.remotes question.Name).length ≠ 0 ∧
        env.Exchange r (pickRemote env (rops.Get p.remotes question.Name)) = some reply) := by
  refine ⟨?_, ?_, ?_, ?_⟩
  · intro hlen
    rcases hq : r.Question with _ | ⟨question, _ | ⟨q2, rest⟩⟩
    · simp [handleRequest, hq]
    · rw [hq] at hlen; simp at hlen
    · simp [handleRequest, hq]
  · intro question hq hr
    simp [handleRequest, hq, hr]
  · intro question hq hr hx
    simp [handleRequest, hq, hr, hx]
  · intro reply hmem
    rcases hq : r.Question with _ | ⟨question, _ | ⟨q2, rest⟩⟩
    · simp [handleRequest, hq] at hmem
    · refine ⟨rfl, question, rfl, ?_⟩
      by_cases hr : (rops.Get p.remotes question.Name).length = 0
      · simp [handleRequest, hq, hr] at hmem
      · refine ⟨hr, ?_⟩
        cases hx : env.Exchange r (pickRemote env (rops.Get p.remotes question.Name)) with
        | none => simp [handleRequest, hq, hr, hx] at hmem
        | some reply' =>
          obtain ⟨-, ld, lc, -, -, htr⟩ :=
            handleRequest_reply rops wops env p r question reply' hq hr hx
          rw [htr] at hmem
          simp only [List.mem_append, List.mem_singleton] at hmem
          rcases hmem with (((hm | hm) | hm) | hm) | hm
          · cases hm
          · obtain ⟨_, _, h⟩ := mem_dnameCalls hm; cases h
          · obtain ⟨_, _, h⟩ := mem_cnameCalls hm; cases h
          · obtain ⟨_, h | h⟩ := mem_pairs hm <;> cases h
          · cases hm; rfl
    · simp [handleRequest, hq] at hmem

/-- The upstream outage run through C5: the query for the watched name
`api.intra.example.com` whose exchange fails leaves the exchange as the only
effect and the watch list untouched. -/
theorem C5_drop_semantics_witness :
    (handleRequest specRemotes specWatches outageEnv exampleProxy exampleQuery).trace =
      [Effect.exchange exampleQuery "10.0.0.1:53"] ∧
    (handleRequest specRemotes specWatches outageEnv exampleProxy exampleQuery).watches =
      exampleProxy.watches :=
  (C5_drop_semantics specRemotes specWatches outageEnv exampleProxy exampleQuery).2.2.1
    ⟨"api.intra.example.com"⟩ rfl (by decide) rfl

end Claims

end dnsproxy

namespace vpnsetup

open dnsproxy (IP Report Proxy RemotesOps WatchesOps)

/-! ## Lemmas on the steps of the orchestrator -/

section StepLemmas

variable {R W : Type}

theorem resolvectl_trace (env : Env) (args : List String) (msg : String) (s : State R W) :
    (resolvectl env args msg s).trace = s.trace ++ [Effect.RunResolvectl args] := by
  unfold resolvectl run logMsg
  dsimp only
  split <;> rfl

theorem resolvectl_v (env : Env) (args : List String) (msg : String) (s : State R W) :
    (resolvectl env args msg s).v = s.v := by
  unfold resolvectl run logMsg
  dsimp only
  split <;> rfl

theorem setupIP_trace (lib : Lib) (env : Env) (c : Config) (ip : IP) (mask : List Nat)
    (s : State R W) :
    (setupIP lib env c ip mask s).trace =
      s.trace ++ [Effect.RunIPAddress ["add", lib.IPNetString ip mask, "dev", c.Device.Name]] := by
  unfold setupIP run logMsg
  dsimp only
  split <;> rfl

theorem setupIP_v (lib : Lib) (env : Env) (c : Config) (ip : IP) (mask : List Nat)
    (s : State R W) : (setupIP lib env c ip mask s).v = s.v := by
  unfold setupIP run logMsg
  dsimp only
  split <;> rfl

/-- The function `setupVPNDevice` leaves the orchestrator as it is. -/
theorem setupVPNDevice_v (lib : Lib) (env : Env) (c : Config) (s : State R W) :
    (setupVPNDevice lib env c s).v = s.v := by
  unfold setupVPNDevice run logMsg
  dsimp only
  split
  · rfl
  · split
    · rfl
    · split <;> split <;> simp [setupIP_v]

/-- The trace of `setupVPNDevice`, by the outcome of its commands. -/
theorem setupVPNDevice_trace (lib : Lib) (env : Env) (c : Config) (s : State R W) :
    (setupVPNDevice lib env c s).trace =
      if env.RunCmdErr s.trace
          (Effect.RunIPLink ["set", c.Device.Name, "mtu", lib.Itoa c.Device.MTU]) = true then
        s.trace ++ [Effect.RunIPLink ["set", c.Device.Name, "mtu", lib.Itoa c.Device.MTU]]
      else if env.RunCmdErr
          (s.trace ++ [Effect.RunIPLink ["set", c.Device.Name, "mtu", lib.Itoa c.Device.MTU]])
          (Effect.RunIPLink ["set", c.Device.Name, "up"]) = true then
        s.trace ++ [Effect.RunIPLink ["set", c.Device.Name, "mtu", lib.Itoa c.Device.MTU],
          Effect.RunIPLink ["set", c.Device.Name, "up"]]
      else
        s.trace ++ [Effect.RunIPLink ["set", c.Device.Name, "mtu", lib.Itoa c.Device.MTU],
          Effect.RunIPLink ["set", c.Device.Name, "up"]] ++
        (if c.IPv4.Address.length > 0 then
          [Effect.RunIPAddress
            ["add", lib.IPNetString c.IPv4.Address c.IPv4.Netmask, "dev", c.Device.Name]]
         else []) ++
        (if c.IPv6.Address.length > 0 then
          [Effect.RunIPAddress
            ["add", lib.IPNetString c.IPv6.Address c.IPv6.Netmask, "dev", c.Device.Name]]
         else []) := by
  unfold setupVPNDevice run logMsg
  dsimp only
  split
  · rfl
  · split
    · simp
    · split <;> split <;> simp [setupIP_trace]

theorem teardownVPNDevice_trace (env : Env) (c : Config) (s : State R W) :
    (teardownVPNDevice env c s).trace =
      s.trace ++ [Effect.RunIPLink ["set", c.Device.Name, "down"]] := by
  unfold teardownVPNDevice run logMsg
  dsimp only
  split <;> rfl

theorem teardownVPNDevice_v (env : Env) (c : Config) (s : State R W) :
    (teardownVPNDevice env c s).v = s.v := by
  unfold teardownVPNDevice run logMsg
  dsimp only
  split <;> rfl

theorem setupDNS_trace (lib : Lib) (rops : RemotesOps R) (wops : WatchesOps W) (env : Env)
    (c : Config) (s : State R W) :
    (setupDNS lib rops wops env c s).trace =
      s.trace ++
        [ Effect.SetRemotes (lib.Remotes c.DNS),
          Effect.SetWatches (lib.DNSExcludes c.Split),
          Effect.RunResolvectl ["dns", c.Device.Name, s.v.dnsProxyConf.Address],
          Effect.RunResolvectl ["domain", c.Device.Name, c.DNS.DefaultDomain, "~."],
          Effect.RunResolvectl ["default-route", c.Device.Name, "yes"],
          Effect.RunResolvectl ["flush-caches"],
          Effect.RunResolvectl ["reset-server-features"] ] := by
  simp [setupDNS, resolvectl_trace, resolvectl_v, setWatches, setRemotes, logMsg]

theorem setupDNS_splitrt (lib : Lib) (rops : RemotesOps R) (wops : WatchesOps W) (env : Env)
    (c : Config) (s : State R W) :
    (setupDNS lib rops wops env c s).v.splitrt = s.v.splitrt := by
  simp [setupDNS, resolvectl_v, setWatches, setRemotes, logMsg]

theorem setupDNS_dnsProxy (lib : Lib) (rops : RemotesOps R) (wops : WatchesOps W) (env : Env)
    (c : Config) (s : State R W) :
    (setupDNS lib rops wops env c s).v.dnsProxy =
      (s.v.dnsProxy.SetRemotes rops (lib.Remotes c.DNS)).SetWatches wops
        (lib.DNSExcludes c.Split) := by
  simp [setupDNS, resolvectl_v, setWatches, setRemotes, logMsg]

theorem teardownDNS_trace (rops : RemotesOps R) (wops : WatchesOps W) (env : Env)
    (c : Config) (s : State R W) :
    (teardownDNS rops wops env c s).trace =
      s.trace ++
        [ Effect.SetRemotes [],
          Effect.SetWatches [],
          Effect.RunResolvectl ["revert", c.Device.Name],
          Effect.RunResolvectl ["flush-caches"],
          Effect.RunResolvectl ["reset-server-features"] ] := by
  simp [teardownDNS, resolvectl_trace, resolvectl_v, setWatches, setRemotes]

theorem teardownDNS_splitrt (rops : RemotesOps R) (wops : WatchesOps W) (env : Env)
    (c : Config) (s : State R W) :
    (teardownDNS rops wops env c s).v.splitrt = s.v.splitrt := by
  simp [teardownDNS, resolvectl_v, setWatches, setRemotes]

theorem sendEvent_trace (env : Env) (event : Event) (s : State R W) :
    (sendEvent env event s).trace =
      s.trace ++ (if env.done s.trace = true then [] else [Effect.sendEvent event]) := by
  unfold sendEvent
  split <;> simp

theorem sendEvent_v (env : Env) (event : Event) (s : State R W) :
    (sendEvent env event s).v = s.v := by
  unfold sendEvent
  split <;> rfl

theorem setupRouting_trace (c : Config) (s : State R W) :
    (setupRouting c s).trace =
      s.trace ++ (match s.v.splitrt with
        | some _ => []
        | none => [Effect.splitrtStart (NewSplitRouting s.v.splitrtConf c)]) := by
  unfold setupRouting
  split <;> simp [*]

theorem setupRouting_v (c : Config) (s : State R W) :
    (setupRouting c s).v.dnsProxyConf = s.v.dnsProxyConf ∧
    (setupRouting c s).v.splitrt =
      some (s.v.splitrt.getD (NewSplitRouting s.v.splitrtConf c)) := by
  unfold setupRouting
  split <;> simp [*]

theorem teardownRouting_trace (s : State R W) :
    (teardownRouting s).trace =
      s.trace ++ (match s.v.splitrt with
        | some sr => [Effect.splitrtStop sr]
        | none => []) := by
  unfold teardownRouting
  split <;> simp [*]

end StepLemmas

end vpnsetup

namespace vpnsetup

open dnsproxy (IP Report Proxy RemotesOps WatchesOps)

/-! ## Properties of the orchestrator -/

section Claims

variable {R W : Type}

/-- The trace of `setup`: the device step, the routing step, the DNS steps,
the event. -/
theorem setup_trace (lib : Lib) (rops : RemotesOps R) (wops : WatchesOps W) (env : Env)
    (c : Config) (s : State R W) :
    (setup lib rops wops env c s).trace =
      (setupVPNDevice lib env c s).trace ++
      (match s.v.splitrt with
        | some _ => []
        | none => [Effect.splitrtStart (NewSplitRouting s.v.splitrtConf c)]) ++
      specSetupDNS lib c s.v ++
      (if env.done ((setupVPNDevice lib env c s).trace ++
          (match s.v.splitrt with
            | some _ => []
            | none => [Effect.splitrtStart (NewSplitRouting s.v.splitrtConf c)]) ++
          specSetupDNS lib c s.v) = true
       then [] else [Effect.sendEvent ⟨EventSetupOK⟩]) := by
  simp only [setup, sendEvent_trace, setupDNS_trace, setupRouting_trace, setupVPNDevice_v,
    (setupRouting_v c _).1, specSetupDNS]

/-- The trace of `teardown`: the teardown sequence, the event. -/
theorem teardown_trace (rops : RemotesOps R) (wops : WatchesOps W) (env : Env)
    (c : Config) (s : State R W) :
    (teardown rops wops env c s).trace =
      s.trace ++ specTeardownSequence c s.v ++
      (if env.done (s.trace ++ specTeardownSequence c s.v) = true
       then [] else [Effect.sendEvent ⟨EventTeardownOK⟩]) := by
  simp only [teardown, sendEvent_trace, teardownDNS_trace, teardownRouting_trace,
    teardownVPNDevice_trace, teardownVPNDevice_v, specTeardownSequence, List.append_assoc]

/-- C6, amended (setup sequence).  For every VPN configuration, when split
routing is not yet running and every external command succeeds, `setup`
performs exactly the setup sequence of the specification, in its order: MTU,
device up, the address of each family present (IPv4, then IPv6), start of
split routing, `SetRemotes(DNS.Remotes())`, `SetWatches(Split.DNSExcludes())`
and the five `resolvectl` commands; and then, provided the orchestrator has
not been stopped, emits `EventSetupOK` as its last effect.  When the `select`
of `sendEvent` takes the case of a stopped orchestrator, nothing follows the
sequence. -/
theorem C6_setup_sequence (lib : Lib) (rops : RemotesOps R) (wops : WatchesOps W) (env : Env)
    (c : Config) (s : State R W) (hsplit : s.v.splitrt = none)
    (hok : ∀ h e, env.RunCmdErr h e = false) :
    (setup lib rops wops env c s).trace =
      s.trace ++ specSetupSequence lib c s.v ++
      (if env.done (s.trace ++ specSetupSequence lib c s.v) = true
       then [] else [Effect.sendEvent ⟨EventSetupOK⟩]) := by
  have hdev : (setupVPNDevice lib env c s).trace ++
      [Effect.splitrtStart (NewSplitRouting s.v.splitrtConf c)] ++ specSetupDNS lib c s.v =
      s.trace ++ specSetupSequence lib c s.v := by
    rw [setupVPNDevice_trace]
    simp [hok, specSetupSequence, specSetupDNS, List.append_assoc]
  rw [setup_trace]
  simp only [hsplit]
  rw [hdev]

/-- The scenario of a simple connect run through the amended C6: the commands
of the scenario in their order, then `EventSetupOK`. -/
theorem C6_setup_sequence_witness :
    (setup exampleLib dnsproxy.specRemotes dnsproxy.specWatches okEnv exampleConfig idle).trace =
      [ Effect.RunIPLink ["set", "oc-daemon-tun0", "mtu", "1300"],
        Effect.RunIPLink ["set", "oc-daemon-tun0", "up"],
        Effect.RunIPAddress ["add", "10.0.0.2/32", "dev", "oc-daemon-tun0"],
        Effect.splitrtStart (NewSplitRouting idle.v.splitrtConf exampleConfig),
        Effect.SetRemotes [(".", ["10.0.0.1:53"])],
        Effect.SetWatches ["intra.example.com"],
        Effect.RunResolvectl ["dns", "oc-daemon-tun0", "127.0.0.1:4253"],
        Effect.RunResolvectl ["domain", "oc-daemon-tun0", "example.com", "~."],
        Effect.RunResolvectl ["default-route", "oc-daemon-tun0", "yes"],
        Effect.RunResolvectl ["flush-caches"],
        Effect.RunResolvectl ["reset-server-features"],
        Effect.sendEvent ⟨EventSetupOK⟩ ] :=
  (C6_setup_sequence exampleLib dnsproxy.specRemotes dnsproxy.specWatches okEnv exampleConfig
    idle rfl (fun _ _ => rfl)).trans (by decide)

/-- C6 as stated fails: split routing is not running, every command succeeds,
the orchestrator has been stopped and the `select` of `sendEvent` takes the
case `<-v.done`; the sequence is performed and no `EventSetupOK` is emitted. -/
theorem C6_stopped_setup_emits_nothing :
    (setup exampleLib dnsproxy.specRemotes dnsproxy.specWatches stoppedEnv exampleConfig
        idle).trace =
      [ Effect.RunIPLink ["set", "oc-daemon-tun0", "mtu", "1300"],
        Effect.RunIPLink ["set", "oc-daemon-tun0", "up"],
        Effect.RunIPAddress ["add", "10.0.0.2/32", "dev", "oc-daemon-tun0"],
        Effect.splitrtStart (NewSplitRouting idle.v.splitrtConf exampleConfig),
        Effect.SetRemotes [(".", ["10.0.0.1:53"])],
        Effect.SetWatches ["intra.example.com"],
        Effect.RunResolvectl ["dns", "oc-daemon-tun0", "127.0.0.1:4253"],
        Effect.RunResolvectl ["domain", "oc-daemon-tun0", "example.com", "~."],
        Effect.RunResolvectl ["default-route", "oc-daemon-tun0", "yes"],
        Effect.RunResolvectl ["flush-caches"],
        Effect.RunResolvectl ["reset-server-features"] ] ∧
    Effect.sendEvent ⟨EventSetupOK⟩ ∉
      (setup exampleLib dnsproxy.specRemotes dnsproxy.specWatches stoppedEnv exampleConfig
        idle).trace := by
  decide

/-- C7, amended (teardown is best-effort and complete).  For every VPN
configuration and every pattern of failing external commands, `teardown`
performs the whole teardown sequence in its order: device down, stop of split
routing when it is running, `SetRemotes` with the empty map, `SetWatches` with
the empty list, `resolvectl revert`, `flush-caches` and
`reset-server-features`; no failure skips a step.  Then, provided the
orchestrator has not been stopped, it emits `EventTeardownOK` as its last
effect, whatever failed; when the `select` of `sendEvent` takes the case of a
stopped orchestrator, no event is emitted.  Afterwards split routing is not
running. -/
theorem C7_teardown_best_effort (rops : RemotesOps R) (wops : WatchesOps W) (env : Env)
    (c : Config) (s : State R W) :
    (teardown rops wops env c s).trace =
      s.trace ++ specTeardownSequence c s.v ++
      (if env.done (s.trace ++ specTeardownSequence c s.v) = true
       then [] else [Effect.sendEvent ⟨EventTeardownOK⟩]) ∧
    (teardown rops wops env c s).v.splitrt = none := by
  refine ⟨teardown_trace rops wops env c s, ?_⟩
  simp only [teardown, sendEvent_v, teardownDNS_splitrt]
  unfold teardownRouting
  split <;> simp [*]

/-- C7 as stated fails: the tunnel is up, the orchestrator has been stopped
and the `select` of `sendEvent` takes the case `<-v.done`; the teardown
sequence is performed and no `EventTeardownOK` is emitted. -/
theorem C7_stopped_teardown_emits_nothing :
    (teardown dnsproxy.specRemotes dnsproxy.specWatches stoppedEnv exampleConfig up).trace =
      up.trace ++
      [ Effect.RunIPLink ["set", "oc-daemon-tun0", "down"],
        Effect.splitrtStop (NewSplitRouting idle.v.splitrtConf exampleConfig),
        Effect.SetRemotes [],
        Effect.SetWatches [],
        Effect.RunResolvectl ["revert", "oc-daemon-tun0"],
        Effect.RunResolvectl ["flush-caches"],
        Effect.RunResolvectl ["reset-server-features"] ] ∧
    Effect.sendEvent ⟨EventTeardownOK⟩ ∉
      (teardown dnsproxy.specRemotes dnsproxy.specWatches stoppedEnv exampleConfig up).trace := by
  decide

/-- No effect of `setupVPNDevice` is the send of an event, of a report, or the
raising of a `done` signal: it appends `ip` commands only. -/
theorem setupVPNDevice_commands (lib : Lib) (env : Env) (c : Config) (s : State R W) :
    ∃ cmds : List Effect, (setupVPNDevice lib env c s).trace = s.trace ++ cmds ∧
      ∀ e ∈ cmds, (∃ args, e = Effect.RunIPLink args) ∨ (∃ args, e = Effect.RunIPAddress args) := by
  rw [setupVPNDevice_trace]
  split
  · exact ⟨_, rfl, by simp⟩
  · split
    · exact ⟨_, rfl, by simp⟩
    · refine ⟨_, by simp only [List.append_assoc]; rfl, ?_⟩
      intro e he
      simp only [List.mem_append, List.mem_cons, List.mem_singleton, List.not_mem_nil,
        or_false] at he
      rcases he with (rfl | rfl) | he | he
      · exact Or.inl ⟨_, rfl⟩
      · exact Or.inl ⟨_, rfl⟩
      · split at he
        · simp at he; exact Or.inr ⟨_, he⟩
        · simp at he
      · split at he
        · simp at he; exact Or.inr ⟨_, he⟩
        · simp at he

/-- C8 (event emission).  Provided the orchestrator has not been stopped, for
every command and every pattern of failing external commands: handling a
Setup command appends to the trace effects none of which is an event,
followed by exactly one event, of type `EventSetupOK`, as the last effect;
handling a Teardown command does the same with one event of type
`EventTeardownOK`. -/
theorem C8_event_emission (lib : Lib) (rops : RemotesOps R) (wops : WatchesOps W) (env : Env)
    (c : command) (s : State R W) (hrun : ∀ h, env.done h = false) :
    (c.cmd = commandSetup →
      ∃ effs : List Effect,
        (handleCommand lib rops wops env c s).trace =
          s.trace ++ effs ++ [Effect.sendEvent ⟨EventSetupOK⟩] ∧
        ∀ e ∈ effs, ∀ ev, e ≠ Effect.sendEvent ev) ∧
    (c.cmd = commandTeardown →
      ∃ effs : List Effect,
        (handleCommand lib rops wops env c s).trace =
          s.trace ++ effs ++ [Effect.sendEvent ⟨EventTeardownOK⟩] ∧
        ∀ e ∈ effs, ∀ ev, e ≠ Effect.sendEvent ev) := by
  constructor
  · intro hc
    obtain ⟨cmds, hcmds, hip⟩ := setupVPNDevice_commands lib env c.vpnconf s
    refine ⟨cmds ++ (match s.v.splitrt with
        | some _ => []
        | none => [Effect.splitrtStart (NewSplitRouting s.v.splitrtConf c.vpnconf)]) ++
        specSetupDNS lib c.vpnconf s.v, ?_, ?_⟩
    · simp only [handleCommand, hc, if_true, setup_trace, hrun, hcmds, List.append_assoc]
      simp
    · intro e he ev hev
      subst hev
      simp only [List.mem_append] at he
      rcases he with (he | he) | he
      · rcases hip _ he with ⟨_, h⟩ | ⟨_, h⟩ <;> cases h
      · split at he <;> simp at he
      · simp [specSetupDNS] at he
  · intro hc
    have hne : ¬ commandTeardown = commandSetup := by decide
    refine ⟨specTeardownSequence c.vpnconf s.v, ?_, ?_⟩
    · simp only [handleCommand, hc, hne, if_true, if_false, teardown_trace, hrun]
      simp
    · intro e he ev hev
      subst hev
      simp only [specTeardownSequence, List.mem_append] at he
      rcases he with (he | he) | he
      · simp at he
      · split at he <;> simp at he
      · simp at he

/-- A Setup command all of whose external commands fail, the MTU command
among them, run through C8: one `EventSetupOK`, as the last effect. -/
theorem C8_event_emission_witness :
    ∃ effs : List Effect,
      (handleCommand exampleLib dnsproxy.specRemotes dnsproxy.specWatches failEnv
          ⟨commandSetup, exampleConfig⟩ idle).trace =
        idle.trace ++ effs ++ [Effect.sendEvent ⟨EventSetupOK⟩] ∧
      ∀ e ∈ effs, ∀ ev, e ≠ Effect.sendEvent ev :=
  (C8_event_emission exampleLib dnsproxy.specRemotes dnsproxy.specWatches failEnv
    ⟨commandSetup, exampleConfig⟩ idle (fun _ => rfl)).1 rfl

/-- C9 (DNS report forwarding).  While split routing is running and the
orchestrator has not been stopped, `handleDNSReport` appends exactly one
effect to the trace: the send of the received report, as it is, on the
channel `DNSReports()` of split routing, and it leaves the orchestrator
unchanged.  Neither `handleDNSReport` nor `handleCommand` ever raises the
`done` signal of a report. -/
theorem C9_report_forwarding (lib : Lib) (rops : RemotesOps R) (wops : WatchesOps W)
    (env : Env) (r : Report) (s : State R W) :
    (∀ sr, s.v.splitrt = some sr → env.done s.trace = false →
      (handleDNSReport env r s).trace = s.trace ++ [Effect.sendDNSReport r] ∧
      (handleDNSReport env r s).v = s.v) ∧
    (∀ r', Effect.reportDone r' ∈ (handleDNSReport env r s).trace →
      Effect.reportDone r' ∈ s.trace) ∧
    (∀ c r', Effect.reportDone r' ∈ (handleCommand lib rops wops env c s).trace →
      Effect.reportDone r' ∈ s.trace) := by
  refine ⟨?_, ?_, ?_⟩
  · intro sr hsr hrun
    simp [handleDNSReport, logMsg, hsr, hrun]
  · intro r' hmem
    unfold handleDNSReport logMsg at hmem
    dsimp only at hmem
    split at hmem
    · exact hmem
    · split at hmem
      · exact hmem
      · simpa using hmem
  · intro c r' hmem
    unfold handleCommand at hmem
    split at hmem
    · obtain ⟨cmds, hcmds, hip⟩ := setupVPNDevice_commands lib env c.vpnconf s
      rw [setup_trace, hcmds] at hmem
      simp only [List.mem_append] at hmem
      rcases hmem with (((h | h) | h) | h) | h
      · exact h
      · rcases hip _ h with ⟨_, h⟩ | ⟨_, h⟩ <;> cases h
      · split at h <;> simp at h
      · simp [specSetupDNS] at h
      · split at h <;> simp at h
    · split at hmem
      · rw [teardown_trace] at hmem
        simp only [specTeardownSequence, List.mem_append] at hmem
        rcases hmem with (h | (h | h) | h) | h
        · exact h
        · simp at h
        · split at h <;> simp at h
        · simp at h
        · split at h <;> simp at h
      · exact hmem

/-- A report received while the tunnel of the scenario is up, run through C9:
the report is forwarded once, unmodified. -/
theorem C9_report_forwarding_witness :
    (handleDNSReport okEnv ⟨"api.internal.example.com", [192, 0, 2, 10], 60⟩ up).trace =
      up.trace ++ [Effect.sendDNSReport ⟨"api.internal.example.com", [192, 0, 2, 10], 60⟩] :=
  ((C9_report_forwarding exampleLib dnsproxy.specRemotes dnsproxy.specWatches okEnv
    ⟨"api.internal.example.com", [192, 0, 2, 10], 60⟩ up).1
      (NewSplitRouting idle.v.splitrtConf exampleConfig) (by decide) rfl).1

/-- C10, amended (a Setup command while split routing is running).  A Setup
command handled while split routing is running creates and starts no new
split routing instance and keeps the running one; its device commands and all
its DNS steps are performed again: the trace grows by the device commands of
`setupVPNDevice`, beginning with the MTU command, then `SetRemotes`,
`SetWatches` and the five `resolvectl` commands, then the event (unless the
orchestrator has been stopped), and the remotes and watches of the DNS proxy
are set from the configuration of the command. -/
theorem C10_setup_while_running (lib : Lib) (rops : RemotesOps R) (wops : WatchesOps W)
    (env : Env) (c : command) (s : State R W) (sr : SplitRouting)
    (hcmd : c.cmd = commandSetup) (hsr : s.v.splitrt = some sr) :
    (handleCommand lib rops wops env c s).v.splitrt = some sr ∧
    (∀ x, Effect.splitrtStart x ∈ (handleCommand lib rops wops env c s).trace →
      Effect.splitrtStart x ∈ s.trace) ∧
    (∃ rest, (setupVPNDevice lib env c.vpnconf s).trace =
      s.trace ++ Effect.RunIPLink ["set", c.vpnconf.Device.Name, "mtu",
        lib.Itoa c.vpnconf.Device.MTU] :: rest) ∧
    (handleCommand lib rops wops env c s).trace =
      (setupVPNDevice lib env c.vpnconf s).trace ++ specSetupDNS lib c.vpnconf s.v ++
      (if env.done ((setupVPNDevice lib env c.vpnconf s).trace ++
          specSetupDNS lib c.vpnconf s.v) = true
       then [] else [Effect.sendEvent ⟨EventSetupOK⟩]) ∧
    (handleCommand lib rops wops env c s).v.dnsProxy =
      (s.v.dnsProxy.SetRemotes rops (lib.Remotes c.vpnconf.DNS)).SetWatches wops
        (lib.DNSExcludes c.vpnconf.Split) := by
  have htr : (handleCommand lib rops wops env c s).trace =
      (setupVPNDevice lib env c.vpnconf s).trace ++ specSetupDNS lib c.vpnconf s.v ++
      (if env.done ((setupVPNDevice lib env c.vpnconf s).trace ++
          specSetupDNS lib c.vpnconf s.v) = true
       then [] else [Effect.sendEvent ⟨EventSetupOK⟩]) := by
    simp only [handleCommand, hcmd, if_true, setup_trace, hsr, List.append_nil]
  have hrt : setupRouting c.vpnconf (setupVPNDevice lib env c.vpnconf s) =
      setupVPNDevice lib env c.vpnconf s := by
    unfold setupRouting
    rw [setupVPNDevice_v, hsr]
  refine ⟨?_, ?_, ?_, htr, ?_⟩
  · simp only [handleCommand, hcmd, if_true, setup, sendEvent_v, setupDNS_splitrt, hrt,
      setupVPNDevice_v, hsr]
  · intro x hmem
    obtain ⟨cmds, hcmds, hip⟩ := setupVPNDevice_commands lib env c.vpnconf s
    rw [htr, hcmds] at hmem
    simp only [List.mem_append] at hmem
    rcases hmem with ((h | h) | h) | h
    · exact h
    · rcases hip _ h with ⟨_, h⟩ | ⟨_, h⟩ <;> cases h
    · simp [specSetupDNS] at h
    · split at h <;> simp at h
  · rw [setupVPNDevice_trace]
    split
    · exact ⟨[], rfl⟩
    · split
      · exact ⟨_, rfl⟩
      · exact ⟨_, by simp only [List.append_assoc]; rfl⟩
  · simp only [handleCommand, hcmd, if_true, setup, sendEvent_v, setupDNS_dnsProxy, hrt,
      setupVPNDevice_v]

/-- A second Setup command, with another configuration, handled while the
tunnel of the scenario is up, run through the amended C10: the running split
routing instance is kept. -/
theorem C10_setup_while_running_witness :
    (handleCommand exampleLib dnsproxy.specRemotes dnsproxy.specWatches okEnv
        ⟨commandSetup, otherConfig⟩ up).v.splitrt =
      some (NewSplitRouting idle.v.splitrtConf exampleConfig) :=
  (C10_setup_while_running exampleLib dnsproxy.specRemotes dnsproxy.specWatches okEnv
    ⟨commandSetup, otherConfig⟩ up (NewSplitRouting idle.v.splitrtConf exampleConfig)
    rfl (by decide)).1

/-- C10 as stated fails: a first Setup command has completed and no Teardown
was handled; a second Setup command, with another configuration, issues `ip`
and `resolvectl` commands again and replaces the remotes and the watches of
the DNS proxy. -/
theorem C10_second_setup_runs_again :
    (handleCommand exampleLib dnsproxy.specRemotes dnsproxy.specWatches okEnv
        ⟨commandSetup, otherConfig⟩ up).trace =
      up.trace ++
      [ Effect.RunIPLink ["set", "tun1", "mtu", "1400"],
        Effect.RunIPLink ["set", "tun1", "up"],
        Effect.SetRemotes [(".", ["10.9.9.9:53"])],
        Effect.SetWatches ["corp.example.org"],
        Effect.RunResolvectl ["dns", "tun1", "127.0.0.1:4253"],
        Effect.RunResolvectl ["domain", "tun1", "example.org", "~."],
        Effect.RunResolvectl ["default-route", "tun1", "yes"],
        Effect.RunResolvectl ["flush-caches"],
        Effect.RunResolvectl ["reset-server-features"],
        Effect.sendEvent ⟨EventSetupOK⟩ ] ∧
    up.v.dnsProxy.remotes = ⟨[(".", ["10.0.0.1:53"])]⟩ ∧
    up.v.dnsProxy.watches.domains = ["intra.example.com"] ∧
    (handleCommand exampleLib dnsproxy.specRemotes dnsproxy.specWatches okEnv
        ⟨commandSetup, otherConfig⟩ up).v.dnsProxy.remotes = ⟨[(".", ["10.9.9.9:53"])]⟩ ∧
    (handleCommand exampleLib dnsproxy.specRemotes dnsproxy.specWatches okEnv
        ⟨commandSetup, otherConfig⟩ up).v.dnsProxy.watches.domains = ["corp.example.org"] := by
  decide

theorem teardownDNS_dnsProxy (rops : RemotesOps R) (wops : WatchesOps W) (env : Env)
    (c : Config) (s : State R W) :
    (teardownDNS rops wops env c s).v.dnsProxy =
      (s.v.dnsProxy.SetRemotes rops []).SetWatches wops [] := by
  simp [teardownDNS, resolvectl_v, setWatches, setRemotes]

theorem teardownRouting_of_none (s : State R W) (h : s.v.splitrt = none) :
    teardownRouting s = s := by
  unfold teardownRouting
  rw [h]

theorem setupRouting_of_some (c : Config) (s : State R W) (sr : SplitRouting)
    (h : s.v.splitrt = some sr) : setupRouting c s = s := by
  unfold setupRouting
  rw [h]

/-- C11, amended (a Teardown command in Idle).  A Teardown command handled
while split routing is not running leaves the routing state as it is: it
stays empty and no split routing instance is stopped.  The rest of teardown
is performed all the same: `ip link set <dev> down`, `SetRemotes` with the
empty map and `SetWatches` with the empty list on the DNS proxy, and the
`resolvectl` commands `revert <dev>`, `flush-caches` and
`reset-server-features`, followed by the event unless the orchestrator has
been stopped. -/
theorem C11_teardown_in_idle (lib : Lib) (rops : RemotesOps R) (wops : WatchesOps W)
    (env : Env) (c : command) (s : State R W)
    (hcmd : c.cmd = commandTeardown) (hidle : s.v.splitrt = none) :
    (handleCommand lib rops wops env c s).v.splitrt = none ∧
    (∀ x, Effect.splitrtStop x ∈ (handleCommand lib rops wops env c s).trace →
      Effect.splitrtStop x ∈ s.trace) ∧
    (handleCommand lib rops wops env c s).trace =
      s.trace ++
      [ Effect.RunIPLink ["set", c.vpnconf.Device.Name, "down"],
        Effect.SetRemotes [],
        Effect.SetWatches [],
        Effect.RunResolvectl ["revert", c.vpnconf.Device.Name],
        Effect.RunResolvectl ["flush-caches"],
        Effect.RunResolvectl ["reset-server-features"] ] ++
      (if env.done (s.trace ++
        [ Effect.RunIPLink ["set", c.vpnconf.Device.Name, "down"],
          Effect.SetRemotes [],
          Effect.SetWatches [],
          Effect.RunResolvectl ["revert", c.vpnconf.Device.Name],
          Effect.RunResolvectl ["flush-caches"],
          Effect.RunResolvectl ["reset-server-features"] ]) = true
       then [] else [Effect.sendEvent ⟨EventTeardownOK⟩]) ∧
    (handleCommand lib rops wops env c s).v.dnsProxy =
      (s.v.dnsProxy.SetRemotes rops []).SetWatches wops [] := by
  have hne : ¬ commandTeardown = commandSetup := by decide
  have hseq : specTeardownSequence c.vpnconf s.v =
      [ Effect.RunIPLink ["set", c.vpnconf.Device.Name, "down"],
        Effect.SetRemotes [],
        Effect.SetWatches [],
        Effect.RunResolvectl ["revert", c.vpnconf.Device.Name],
        Effect.RunResolvectl ["flush-caches"],
        Effect.RunResolvectl ["reset-server-features"] ] := by
    simp [specTeardownSequence, hidle]
  have htr : (handleCommand lib rops wops env c s).trace =
      s.trace ++ specTeardownSequence c.vpnconf s.v ++
      (if env.done (s.trace ++ specTeardownSequence c.vpnconf s.v) = true
       then [] else [Effect.sendEvent ⟨EventTeardownOK⟩]) := by
    simp only [handleCommand, hcmd, hne, if_true, if_false, teardown_trace]
  have hrt : teardownRouting (teardownVPNDevice env c.vpnconf s) =
      teardownVPNDevice env c.vpnconf s :=
    teardownRouting_of_none _ (by rw [teardownVPNDevice_v]; exact hidle)
  refine ⟨?_, ?_, ?_, ?_⟩
  · simp only [handleCommand, hcmd, hne, if_true, if_false, teardown, sendEvent_v,
      teardownDNS_splitrt, hrt, teardownVPNDevice_v, hidle]
  · intro x hmem
    rw [htr, hseq] at hmem
    simp only [List.mem_append] at hmem
    rcases hmem with (h | h) | h
    · exact h
    · simp at h
    · split at h <;> simp at h
  · rw [htr, hseq]
  · simp only [handleCommand, hcmd, hne, if_true, if_false, teardown, sendEvent_v,
      teardownDNS_dnsProxy, hrt, teardownVPNDevice_v]

/-- A Teardown command handled right after the start of the orchestrator,
run through the amended C11: the routing state stays empty. -/
theorem C11_teardown_in_idle_witness :
    (handleCommand exampleLib dnsproxy.specRemotes dnsproxy.specWatches okEnv
        ⟨commandTeardown, exampleConfig⟩ idle).v.splitrt = none :=
  (C11_teardown_in_idle exampleLib dnsproxy.specRemotes dnsproxy.specWatches okEnv
    ⟨commandTeardown, exampleConfig⟩ idle rfl rfl).1

/-- C11 as stated fails: no Setup command was handled since the start of the
orchestrator, and the Teardown command issues the `ip` command and the three
`resolvectl` commands and calls `SetRemotes` and `SetWatches` on the DNS
proxy. -/
theorem C11_idle_teardown_issues_commands :
    idle.v.splitrt = none ∧
    (handleCommand exampleLib dnsproxy.specRemotes dnsproxy.specWatches okEnv
        ⟨commandTeardown, exampleConfig⟩ idle).trace =
      [ Effect.RunIPLink ["set", "oc-daemon-tun0", "down"],
        Effect.SetRemotes [],
        Effect.SetWatches [],
        Effect.RunResolvectl ["revert", "oc-daemon-tun0"],
        Effect.RunResolvectl ["flush-caches"],
        Effect.RunResolvectl ["reset-server-features"],
        Effect.sendEvent ⟨EventTeardownOK⟩ ] := by
  decide

/-- C14 (starting split routing is idempotent).  When split routing is
running, `setupRouting` leaves the whole state as it is, for every VPN
configuration: no instance is created or started and the running one stays in
place.  `teardownRouting` on an empty routing state does nothing; on a running
one it stops the instance; in both cases the routing state is empty
afterwards, so that the next `setupRouting` creates and starts a fresh
instance for the configuration it is given. -/
theorem C14_routing_idempotent (c : Config) (s : State R W) :
    (∀ sr, s.v.splitrt = some sr → setupRouting c s = s) ∧
    (s.v.splitrt = none → teardownRouting s = s) ∧
    (∀ sr, s.v.splitrt = some sr →
      (teardownRouting s).trace = s.trace ++ [Effect.splitrtStop sr]) ∧
    (teardownRouting s).v.splitrt = none ∧
    (setupRouting c (teardownRouting s)).v.splitrt =
      some (NewSplitRouting s.v.splitrtConf c) ∧
    (setupRouting c (teardownRouting s)).trace =
      (teardownRouting s).trace ++ [Effect.splitrtStart (NewSplitRouting s.v.splitrtConf c)] := by
  have hnone : (teardownRouting s).v.splitrt = none := by
    unfold teardownRouting
    split <;> simp [*]
  have hconf : (teardownRouting s).v.splitrtConf = s.v.splitrtConf := by
    unfold teardownRouting
    split <;> rfl
  refine ⟨fun sr h => setupRouting_of_some c s sr h, teardownRouting_of_none s, ?_, hnone,
    ?_, ?_⟩
  · intro sr h
    rw [teardownRouting_trace, h]
  · rw [(setupRouting_v c _).2, hnone, hconf]
    rfl
  · rw [setupRouting_trace, hnone, hconf]

/-- A second `setupRouting`, with another configuration, while the tunnel of
the scenario is up, run through C14: nothing changes. -/
theorem C14_routing_idempotent_witness : setupRouting otherConfig up = up :=
  (C14_routing_idempotent otherConfig up).1
    (NewSplitRouting idle.v.splitrtConf exampleConfig) (by decide)

/-- C16 (partial failure of the device step).  If the MTU command fails, it
is the only command of the device step: neither the device is set up nor is
an address added.  If the MTU command succeeds and `ip link set <dev> up`
fails, no address is added.  If both succeed, the address of each family
present is added, IPv4 first, whatever the outcome of the `ip address add`
commands, so a failing IPv4 command does not prevent the IPv6 command.  In
every case, for every pattern of failing commands, the device step is followed
by the routing step (split routing is started unless it is running already,
and it is running afterwards) and by all the DNS steps. -/
theorem C16_device_step_failures (lib : Lib) (rops : RemotesOps R) (wops : WatchesOps W)
    (env : Env) (c : Config) (s : State R W) :
    (env.RunCmdErr s.trace
        (Effect.RunIPLink ["set", c.Device.Name, "mtu", lib.Itoa c.Device.MTU]) = true →
      (setupVPNDevice lib env c s).trace =
        s.trace ++ [Effect.RunIPLink ["set", c.Device.Name, "mtu", lib.Itoa c.Device.MTU]]) ∧
    (env.RunCmdErr s.trace
        (Effect.RunIPLink ["set", c.Device.Name, "mtu", lib.Itoa c.Device.MTU]) = false →
      env.RunCmdErr
        (s.trace ++ [Effect.RunIPLink ["set", c.Device.Name, "mtu", lib.Itoa c.Device.MTU]])
        (Effect.RunIPLink ["set", c.Device.Name, "up"]) = true →
      (setupVPNDevice lib env c s).trace =
        s.trace ++ [Effect.RunIPLink ["set", c.Device.Name, "mtu", lib.Itoa c.Device.MTU],
          Effect.RunIPLink ["set", c.Device.Name, "up"]]) ∧
    (env.RunCmdErr s.trace
        (Effect.RunIPLink ["set", c.Device.Name, "mtu", lib.Itoa c.Device.MTU]) = false →
      env.RunCmdErr
        (s.trace ++ [Effect.RunIPLink ["set", c.Device.Name, "mtu", lib.Itoa c.Device.MTU]])
        (Effect.RunIPLink ["set", c.Device.Name, "up"]) = false →
      (setupVPNDevice lib env c s).trace =
        s.trace ++ [Effect.RunIPLink ["set", c.Device.Name, "mtu", lib.Itoa c.Device.MTU],
          Effect.RunIPLink ["set", c.Device.Name, "up"]] ++
        (if c.IPv4.Address.length > 0 then
          [Effect.RunIPAddress
            ["add", lib.IPNetString c.IPv4.Address c.IPv4.Netmask, "dev", c.Device.Name]]
         else []) ++
        (if c.IPv6.Address.length > 0 then
          [Effect.RunIPAddress
            ["add", lib.IPNetString c.IPv6.Address c.IPv6.Netmask, "dev", c.Device.Name]]
         else [])) ∧
    (∃ event : List Effect,
      (event = [] ∨ event = [Effect.sendEvent ⟨EventSetupOK⟩]) ∧
      (setup lib rops wops env c s).trace =
        (setupVPNDevice lib env c s).trace ++
        (match s.v.splitrt with
          | some _ => []
          | none => [Effect.splitrtStart (NewSplitRouting s.v.splitrtConf c)]) ++
        [ Effect.SetRemotes (lib.Remotes c.DNS),
          Effect.SetWatches (lib.DNSExcludes c.Split),
          Effect.RunResolvectl ["dns", c.Device.Name, s.v.dnsProxyConf.Address],
          Effect.RunResolvectl ["domain", c.Device.Name, c.DNS.DefaultDomain, "~."],
          Effect.RunResolvectl ["default-route", c.Device.Name, "yes"],
          Effect.RunResolvectl ["flush-caches"],
          Effect.RunResolvectl ["reset-server-features"] ] ++ event) ∧
    (setup lib rops wops env c s).v.splitrt =
      some (s.v.splitrt.getD (NewSplitRouting s.v.splitrtConf c)) := by
  refine ⟨?_, ?_, ?_, ?_, ?_⟩
  · intro h1
    rw [setupVPNDevice_trace, if_pos h1]
  · intro h1 h2
    rw [setupVPNDevice_trace, if_neg (by simp [h1]), if_pos h2]
  · intro h1 h2
    rw [setupVPNDevice_trace, if_neg (by simp [h1]), if_neg (by simp [h2])]
  · refine ⟨_, ?_, setup_trace lib rops wops env c s⟩
    split
    · exact Or.inl rfl
    · exact Or.inr rfl
  · simp only [setup, sendEvent_v, setupDNS_splitrt]
    rw [(setupRouting_v c _).2, setupVPNDevice_v]

/-- A setup all of whose commands fail, run through C16: the MTU command is
the only command of the device step. -/
theorem C16_device_step_failures_witness :
    (setupVPNDevice exampleLib failEnv exampleConfig idle).trace =
      idle.trace ++ [Effect.RunIPLink ["set", "oc-daemon-tun0", "mtu", "1300"]] :=
  (C16_device_step_failures exampleLib dnsproxy.specRemotes dnsproxy.specWatches failEnv
    exampleConfig idle).1 rfl

/-- C17 (a DNS report while split routing is not running is dropped).  For
every report, when the routing state is empty, `handleDNSReport` performs no
effect: the report is sent on no channel and its `done` signal is not raised;
the orchestrator is left as it is. -/
theorem C17_report_dropped (env : Env) (r : Report) (s : State R W)
    (hidle : s.v.splitrt = none) :
    (handleDNSReport env r s).trace = s.trace ∧
    (handleDNSReport env r s).v = s.v ∧
    (∀ x, Effect.sendDNSReport x ∈ (handleDNSReport env r s).trace →
      Effect.sendDNSReport x ∈ s.trace) ∧
    (∀ x, Effect.reportDone x ∈ (handleDNSReport env r s).trace →
      Effect.reportDone x ∈ s.trace) := by
  have h : handleDNSReport env r s = logMsg "Daemon handling DNS report" s := by
    simp [handleDNSReport, logMsg, hidle]
  rw [h]
  exact ⟨rfl, rfl, fun _ hx => hx, fun _ hx => hx⟩

/-- A report received right after the start of the orchestrator, run through
C17: nothing is sent and the orchestrator is unchanged. -/
theorem C17_report_dropped_witness :
    (handleDNSReport okEnv ⟨"api.internal.example.com", [192, 0, 2, 10], 60⟩ idle).trace =
      idle.trace :=
  (C17_report_dropped okEnv ⟨"api.internal.example.com", [192, 0, 2, 10], 60⟩ idle rfl).1

end Claims

end vpnsetup


namespace trafpol

/-! ## Lemmas on the map of the allowed devices -/

theorem lookup_of_own_names (m : StringMap) (h : ∀ e ∈ m, e.2 = e.1) (k : String) :
    m.lookup k = if k ∈ m.map (fun e => e.1) then some k else none := by
  induction m with
  | nil => simp
  | cons e m ih =>
    obtain ⟨k1, v1⟩ := e
    have hv : v1 = k1 := h (k1, v1) (List.mem_cons_self _ _)
    have ih' := ih fun e he => h e (List.mem_cons_of_mem _ he)
    by_cases hk : k = k1
    · subst hk
      simp [List.lookup, hv]
    · have hb : (k == k1) = false := beq_eq_false_iff_ne.mpr hk
      have hmem : k ∈ k1 :: m.map (fun e => e.1) ↔ k ∈ m.map (fun e => e.1) := by
        rw [List.mem_cons]
        exact ⟨fun h => h.resolve_left hk, Or.inr⟩
      simp only [List.lookup, hb, List.map_cons]
      rw [ih']
      exact if_congr hmem.symm rfl rfl

theorem mapIndex_of_own_names (m : StringMap) (h : ∀ e ∈ m, e.2 = e.1) (k : String) :
    mapIndex m k = if k ∈ m.map (fun e => e.1) then k else "" := by
  unfold mapIndex
  rw [lookup_of_own_names m h k]
  split <;> rfl

theorem List_eq_keys (a : AllowDevs) (hv : a.valid) : a.List = a.m.map fun e => e.1 := by
  unfold AllowDevs.List
  apply List.map_congr_left
  intro e he
  exact hv.2 e he

theorem keys_mapDelete (m : StringMap) (k : String) :
    (mapDelete m k).map (fun e => e.1) = (m.map fun e => e.1).filter fun x => x != k := by
  unfold mapDelete
  induction m with
  | nil => rfl
  | cons e m ih =>
    by_cases hk : e.1 = k
    · simp [List.filter_cons, hk, ih]
    · simp [List.filter_cons, hk, ih]

theorem valid_new : NewAllowDevs.valid := by
  simp [AllowDevs.valid, NewAllowDevs]

theorem valid_mapDelete (a : AllowDevs) (hv : a.valid) (k : String) :
    AllowDevs.valid { m := mapDelete a.m k } := by
  constructor
  · show ((mapDelete a.m k).map fun e => e.1).Nodup
    rw [keys_mapDelete]
    exact hv.1.filter _
  · intro e he
    exact hv.2 e (List.mem_filter.mp he).1

theorem valid_mapAssign (a : AllowDevs) (hv : a.valid) (k : String) :
    AllowDevs.valid { m := mapAssign a.m k k } := by
  constructor
  · show (k :: (mapDelete a.m k).map fun e => e.1).Nodup
    rw [keys_mapDelete, List.nodup_cons]
    exact ⟨by simp [List.mem_filter], hv.1.filter _⟩
  · intro e he
    rcases List.mem_cons.mp he with rfl | he
    · rfl
    · exact hv.2 e (List.mem_filter.mp he).1

theorem valid_Add (device : String) (s : State) (hv : s.a.valid) :
    (AllowDevs.Add device s).a.valid := by
  unfold AllowDevs.Add
  split
  · exact valid_mapAssign s.a hv device
  · exact hv

theorem valid_Remove (device : String) (s : State) (hv : s.a.valid) :
    (AllowDevs.Remove device s).a.valid := by
  unfold AllowDevs.Remove
  split
  · exact valid_mapDelete s.a hv device
  · exact hv

/-- Every state of `AllowDevs` a program can get to satisfies the invariant. -/
theorem reachable_valid (a : AllowDevs) (h : Reachable a) : a.valid := by
  induction h with
  | new => exact valid_new
  | add device s _ ih => exact valid_Add device s ih
  | remove device s _ ih => exact valid_Remove device s ih

/-! ## Properties of the allowed devices -/

theorem mem_keys_of_mem_List (a : AllowDevs) (hv : a.valid) (device : String) :
    device ∈ a.List ↔ device ∈ a.m.map fun e => e.1 := by
  rw [List_eq_keys a hv]

/-- On a valid state, `Add` of a device that is not allowed yet, other than
the empty name, assigns it and pushes one delta. -/
theorem Add_of_not_mem (device : String) (s : State) (hv : s.a.valid) (hd : device ≠ "")
    (hnin : device ∉ s.a.List) :
    AllowDevs.Add device s =
      { a := { m := mapAssign s.a.m device device }
        trace := s.trace ++ [Effect.addAllowedDevice device] } := by
  rw [mem_keys_of_mem_List s.a hv] at hnin
  unfold AllowDevs.Add
  rw [mapIndex_of_own_names s.a.m hv.2, if_neg hnin]
  have hne : ("" != device) = true := bne_iff_ne.mpr (Ne.symm hd)
  rw [if_pos hne]

/-- On a valid state, `Add` of a device that is allowed already changes
nothing. -/
theorem Add_of_mem (device : String) (s : State) (hv : s.a.valid) (hin : device ∈ s.a.List) :
    AllowDevs.Add device s = s := by
  rw [mem_keys_of_mem_List s.a hv] at hin
  unfold AllowDevs.Add
  rw [mapIndex_of_own_names s.a.m hv.2, if_pos hin]
  simp

/-- On a valid state, `Remove` of a device that is allowed deletes it and
pushes one delta. -/
theorem Remove_of_mem (device : String) (s : State) (hv : s.a.valid)
    (hin : device ∈ s.a.List) :
    AllowDevs.Remove device s =
      { a := { m := mapDelete s.a.m device }
        trace := s.trace ++ [Effect.removeAllowedDevice device] } := by
  rw [mem_keys_of_mem_List s.a hv] at hin
  unfold AllowDevs.Remove
  rw [mapIndex_of_own_names s.a.m hv.2, if_pos hin]
  simp

/-- On a valid state, `Remove` of a device that is not allowed, other than the
empty name, changes nothing. -/
theorem Remove_of_not_mem (device : String) (s : State) (hv : s.a.valid) (hd : device ≠ "")
    (hnin : device ∉ s.a.List) :
    AllowDevs.Remove device s = s := by
  rw [mem_keys_of_mem_List s.a hv] at hnin
  unfold AllowDevs.Remove
  rw [mapIndex_of_own_names s.a.m hv.2, if_neg hnin]
  have hne : ("" == device) = false := beq_eq_false_iff_ne.mpr (Ne.symm hd)
  rw [hne]
  simp

theorem not_mem_List_mapDelete (a : AllowDevs) (hv : a.valid) (device : String) :
    device ∉ AllowDevs.List { m := mapDelete a.m device } := by
  rw [List_eq_keys _ (valid_mapDelete a hv device)]
  show device ∉ (mapDelete a.m device).map fun e => e.1
  rw [keys_mapDelete]
  simp [List.mem_filter]

theorem count_List_mapAssign (a : AllowDevs) (hv : a.valid) (device : String) :
    (AllowDevs.List { m := mapAssign a.m device device }).count device = 1 := by
  rw [List_eq_keys _ (valid_mapAssign a hv device)]
  exact List.count_eq_one_of_mem (valid_mapAssign a hv device).1
    (by simp [mapAssign])

/-- C12 (duplicate add is a no-op).  For every state of `AllowDevs` that
satisfies the invariant of its map, as every state reachable from
`NewAllowDevs` does, and every device that is already among the allowed
devices, `Add(device)` leaves the state as it is: the map and the list
returned by `List` are unchanged and no nft delta is pushed
(`addAllowedDevice` is not called). -/
theorem C12_duplicate_add (device : String) (s : State) (hv : s.a.valid)
    (hin : device ∈ s.a.List) :
    (AllowDevs.Add device s).a = s.a ∧
    (AllowDevs.Add device s).a.List = s.a.List ∧
    (AllowDevs.Add device s).trace = s.trace := by
  rw [Add_of_mem device s hv hin]
  exact ⟨rfl, rfl, rfl⟩

/-- The duplicate add of `lo` to the allowed devices `lo`, run through C12. -/
theorem C12_duplicate_add_witness :
    (AllowDevs.Add "lo" loOnly).a = loOnly.a ∧
    (AllowDevs.Add "lo" loOnly).a.List = loOnly.a.List ∧
    (AllowDevs.Add "lo" loOnly).trace = loOnly.trace :=
  C12_duplicate_add "lo" loOnly (by decide) (by decide)

/-- Add and remove for every device name other than the empty one: on a
valid state, after `Add(d)` the list holds `d` exactly once, after the
following `Remove(d)` it holds `d` no more, an `Add` that changed the set
pushed exactly the delta `addAllowedDevice(d)` and the `Remove` pushed exactly
the delta `removeAllowedDevice(d)`. -/
theorem Add_Remove_of_ne_empty (d : String) (s : State) (hv : s.a.valid) (hd : d ≠ "") :
    (AllowDevs.Add d s).a.List.count d = 1 ∧
    d ∉ (AllowDevs.Remove d (AllowDevs.Add d s)).a.List ∧
    (d ∉ s.a.List → (AllowDevs.Add d s).trace = s.trace ++ [Effect.addAllowedDevice d]) ∧
    (d ∈ s.a.List → (AllowDevs.Add d s).trace = s.trace) ∧
    (AllowDevs.Remove d (AllowDevs.Add d s)).trace =
      (AllowDevs.Add d s).trace ++ [Effect.removeAllowedDevice d] := by
  have hcount : (AllowDevs.Add d s).a.List.count d = 1 := by
    by_cases hin : d ∈ s.a.List
    · rw [Add_of_mem d s hv hin, List_eq_keys s.a hv]
      exact List.count_eq_one_of_mem hv.1 ((mem_keys_of_mem_List s.a hv d).mp hin)
    · rw [Add_of_not_mem d s hv hd hin]
      exact count_List_mapAssign s.a hv d
  have hmem : d ∈ (AllowDevs.Add d s).a.List := by
    rw [← List.count_pos_iff, hcount]
    exact Nat.one_pos
  have hrem := Remove_of_mem d (AllowDevs.Add d s) (valid_Add d s hv) hmem
  refine ⟨hcount, ?_, ?_, ?_, ?_⟩
  · rw [hrem]
    exact not_mem_List_mapDelete _ (valid_Add d s hv) d
  · intro hnin
    rw [Add_of_not_mem d s hv hd hnin]
  · intro hin
    rw [Add_of_mem d s hv hin]
  · rw [hrem]

/-- C13 fails on the code at the empty device name, the input of the test.
On a new `AllowDevs`, `Add("")` stores nothing and pushes no delta, because
the index expression yields the zero value `""` for the missing key, so the
list does not hold the device after the add; the following `Remove("")` then
pushes the delta `removeAllowedDevice("")` although the set did not change. -/
theorem C13_empty_name_is_not_added :
    "" ∉ (AllowDevs.Add "" fresh).a.List ∧
    (AllowDevs.Add "" fresh).a.List.count "" = 0 ∧
    (AllowDevs.Add "" fresh).trace = [] ∧
    (AllowDevs.Remove "" (AllowDevs.Add "" fresh)).a = (AllowDevs.Add "" fresh).a ∧
    (AllowDevs.Remove "" (AllowDevs.Add "" fresh)).trace = [Effect.removeAllowedDevice ""] := by
  decide

/-- Remove for every device name other than the empty one: on a valid state,
`Remove` of a device that is not allowed leaves the state as it
is, and `Remove` pushes the delta `removeAllowedDevice` if and only if the
device was allowed before the call. -/
theorem Remove_absent_of_ne_empty (d : String) (s : State) (hv : s.a.valid) (hd : d ≠ "") :
    (d ∉ s.a.List → AllowDevs.Remove d s = s) ∧
    (Effect.removeAllowedDevice d ∈ (AllowDevs.Remove d s).trace.drop s.trace.length ↔
      d ∈ s.a.List) := by
  refine ⟨Remove_of_not_mem d s hv hd, ?_⟩
  by_cases hin : d ∈ s.a.List
  · rw [Remove_of_mem d s hv hin]
    simp [hin]
  · rw [Remove_of_not_mem d s hv hd hin]
    simp [hin]

/-- C15 fails on the code at the empty device name.  The empty name is not
among the allowed devices of a new `AllowDevs`, and yet `Remove("")` pushes
the delta `removeAllowedDevice("")`, because the index expression yields the
zero value `""` for the missing key; the set itself is left unchanged. -/
theorem C15_absent_empty_name_is_removed :
    "" ∉ fresh.a.List ∧
    (AllowDevs.Remove "" fresh).a = fresh.a ∧
    (AllowDevs.Remove "" fresh).trace = [Effect.removeAllowedDevice ""] := by
  decide

end trafpol
